import Mathlib

/-!
# Verification of the open-adventure-ts game engine

A shallow embedding of the core engine of the `open-adventure-ts`
repository (a TypeScript port of Open Adventure), together with proofs
about it.

The static dungeon tables (`dungeon.generated`) are produced by an
offline data compiler and are not part of the engine source; the
embedding is therefore parametrised by a `Dungeon` structure carrying
the table data and the generated id constants (object ids, message ids,
motion ids, object-state codes).  All numbers are modelled as `Int`,
mirroring TypeScript `number` on the exact integer range; `Math.trunc`
division is `Int.tdiv` and the JS `%` operator is `Int.tmod`.

Partial loops in the source (chain scans in `carry`, travel-table walks
in `playermove`) are modelled with explicit fuel; exhausting fuel (a
walk the source would not complete) is `none` / an explicit `out`
result.
-/

namespace Advent

/-- Pointwise update of a function modelling a mutable array cell write. -/
def upd (f : Int → Int) (i v : Int) : Int → Int :=
  fun x => if x = i then v else f x

/-- `n` consecutive integers starting at `a`. -/
def intRangeGo (a : Int) : Nat → List Int
  | 0 => []
  | n + 1 => a :: intRangeGo (a + 1) n

/-- The integers `a, a+1, ..., b` as a list (empty when `b < a`). -/
def intRange (a b : Int) : List Int :=
  intRangeGo a (b + 1 - a).toNat

/-- Events emitted through the injected I/O callbacks (`rspeak`,
`pspeak`, action-message `speak`, and the `croak` death callback). -/
inductive Ev where
  | rsp (m : Int) (args : List Int)
  | psp (obj mode : Int) (blank : Bool) (skip : Int)
  | actmsg (verb : Int)
  | croakEv
  deriving DecidableEq, Repr

/-- One travel-table entry (`TravelOp` in `types.ts`). -/
structure TravelOp where
  motion : Int
  condtype : Int
  condarg1 : Int
  condarg2 : Int
  desttype : Int
  destval : Int
  nodwarves : Bool
  stop : Bool
  deriving DecidableEq, Repr

/-- The static dungeon tables and generated id constants consumed by the
engine.  `dungeon.generated` is produced by the offline data compiler;
the engine treats all of this as read-only input. -/
structure Dungeon where
  N : Nat                 -- NOBJECTS
  NL : Nat                -- NLOCATIONS
  ndwarves : Nat          -- NDWARVES
  ndeaths : Nat           -- NDEATHS
  maxState : Int          -- MAX_STATE
  isTreasure : Int → Bool
  objPlac : Int → Int     -- objects[i].plac
  objFixd : Int → Int     -- objects[i].fixd
  travel : Int → TravelOp
  tkey : Int → Int
  cond : Int → Int        -- per-location condition bitmasks
  -- object ids
  bird : Int
  eggs : Int
  troll : Int
  troll2 : Int
  chasm : Int
  bear : Int
  emerald : Int
  snake : Int
  dragon : Int
  dwarfObj : Int
  food : Int
  ogre : Int
  axe : Int
  -- location ids
  locPlover : Int
  locAlcove : Int
  locGrate : Int
  -- motion ids
  mNul : Int
  mBack : Int
  mLook : Int
  mCave : Int
  mEast : Int
  mWest : Int
  mNorth : Int
  mSouth : Int
  mNE : Int
  mNW : Int
  mSW : Int
  mSE : Int
  mUp : Int
  mDown : Int
  mForward : Int
  mLeft : Int
  mRight : Int
  mOutside : Int
  mInside : Int
  mXyzzy : Int
  mPlugh : Int
  mCrawl : Int
  mHere : Int
  -- action ids (big words)
  aFee : Int
  aFie : Int
  aFoe : Int
  aFoo : Int
  aFum : Int
  -- message ids
  msgBadDirection : Int
  msgUnsureFacing : Int
  msgNoInoutHere : Int
  msgNothingHappens : Int
  msgWhichWay : Int
  msgCantApply : Int
  msgTwistTurn : Int
  msgForgotPath : Int
  msgNotConnected : Int
  msgNoMoreDetail : Int
  msgFollowStream : Int
  msgNeedDetail : Int
  msgMustDrop : Int
  msgOkMan : Int
  msgStartOver : Int
  msgWellPointless : Int
  msgBirdPining : Int
  msgRidiculousAttempt : Int
  msgNothingEdible : Int
  msgBirdDevoured : Int
  msgTrollVices : Int
  msgReallyMad : Int
  msgOgreFull : Int
  msgAmGame : Int
  msgBadSave : Int
  msgVersionSkew : Int
  msgSaveTampering : Int
  -- object-state codes
  stTrollPaidonce : Int
  stTrollUnpaid : Int
  stTrollGone : Int
  stBridgeWrecked : Int
  stBearDead : Int
  stUntamedBear : Int
  stSittingBear : Int
  stAxeHere : Int
  stEggsVanished : Int
  stEggsHere : Int
  stEggsDone : Int
  stDragonBars : Int
  stBirdCaged : Int

/-- The mutable game state (`GameState` in `types.ts`).  Arrays are
modelled as total functions from `Int`. -/
structure GState where
  lcgX : Int
  abbnum : Int
  chloc : Int
  chloc2 : Int
  closed : Bool
  detail : Int
  dflag : Int
  dkill : Int
  dtotal : Int
  foobar : Int
  holdng : Int
  loc : Int
  newloc : Int
  numdie : Int
  oldloc : Int
  oldlc2 : Int
  saved : Int
  tally : Int
  seenbigwords : Bool
  wzdark : Bool
  abbrevs : Int → Int     -- locs[L].abbrev
  atloc : Int → Int       -- locs[L].atloc
  dloc : Int → Int        -- dwarves[i].loc
  dOldloc : Int → Int     -- dwarves[i].oldloc
  place : Int → Int       -- objects[o].place
  fixed : Int → Int       -- objects[o].fixed
  prop : Int → Int        -- objects[o].prop
  link : Int → Int

/-- Runtime settings relevant to the embedded code. -/
structure Settings where
  oldstyle : Bool
  debug : Int

/-- `CARRIED` marker from `types.ts`. -/
def CARRIED : Int := -1

/-- `Location.LOC_NOWHERE`: id 0 is reserved as "none/nowhere". -/
def LOC_NOWHERE : Int := 0

-- LCG parameters from `types.ts`.

def LCG_A : Int := 1093

def LCG_C : Int := 221587

def LCG_M : Int := 1048576

/-! ## PRNG (`rng.ts`) -/

/-- `getNextLcgValue`: advance the register, return the pre-advance
value.  JS `%` on these non-negative operands is `Int.tmod`. -/
def getNextLcgValue (s : GState) : Int × GState :=
  (s.lcgX, { s with lcgX := (LCG_A * s.lcgX + LCG_C).tmod LCG_M })

/-- `randrange(range)`: `Math.trunc((range * old) / LCG_M)` after
advancing the register.  Division by `LCG_M = 2^20` is exact in IEEE
doubles, so `Math.trunc` of the float quotient is `Int.tdiv`. -/
def randrange (s : GState) (range : Int) : Int × GState :=
  let (old, s') := getNextLcgValue s
  ((range * old).tdiv LCG_M, s')

/-- `PCT(n)`: `randrange(100) < n`. -/
def PCT (s : GState) (n : Int) : Bool × GState :=
  let (r, s') := randrange s 100
  (r < n, s')

/-! ## `atdwrf` (`object-manipulation.ts` / `dwarves.ts`) -/

/-- The `for (i = 1; i <= 5; i++)` loop body of `atdwrf`:
return `i` on the first dwarf at `w`, else remember (in `at`) whether a
live dwarf was seen. -/
def atdwrfGo (s : GState) (w : Int) : List Int → Int → Int
  | [], at_ => at_
  | i :: rest, at_ =>
    if s.dloc i = w then i
    else atdwrfGo s w rest (if s.dloc i ≠ 0 then 0 else at_)

/-- `atdwrf(where)`: index of the first ordinary dwarf at `where`, `0`
if none there or dwarves not yet active, `-1` if all are dead; the
pirate (dwarf 6) is ignored. -/
def atdwrf (s : GState) (w : Int) : Int :=
  if s.dflag < 2 then 0
  else atdwrfGo s w [1, 2, 3, 4, 5] (-1)

/-! ## Object-location primitives (`object-manipulation.ts`)

The per-location object chains live in the flat `atloc`/`link` index
space.  Chain walks are fuel-bounded: the source's `while` loops spin
forever (or crash on `undefined`) when the scanned object is absent, we
return `none` in that case. -/

/-- Walk a `link` chain from head `h` until the 0 terminator, returning
the list of visited ids; `none` if the walk does not reach 0 within
`fuel` steps. -/
def chainW (link : Int → Int) : Nat → Int → Option (List Int)
  | 0, h => if h = 0 then some [] else none
  | fuel + 1, h =>
    if h = 0 then some []
    else
      match chainW link fuel (link h) with
      | some l => some (h :: l)
      | none => none

/-- The `while (link[temp] !== object) temp = link[temp];` scan of
`carry`: find the chain predecessor of `object` starting at `temp`. -/
def findLoop (link : Int → Int) (object : Int) : Nat → Int → Option Int
  | 0, _ => none
  | fuel + 1, temp =>
    if link temp = object then some temp
    else findLoop link object fuel (link temp)

/-- Fuel that always suffices for a well-formed chain: more than the
number of ids in the `[1, 2N]` index space. -/
def chainFuel (d : Dungeon) : Nat := 2 * d.N + 1

/-- Detach `object` from the chain at `where` (the tail of `carry`). -/
def carryChain (d : Dungeon) (s : GState) (object w : Int) : Option GState :=
  if s.atloc w = object then
    some { s with atloc := upd s.atloc w (s.link object) }
  else
    match findLoop s.link object (chainFuel d) (s.atloc w) with
    | some temp => some { s with link := upd s.link temp (s.link object) }
    | none => none

/-- `carry(object, where)`: start toting an object, removing it from
`where`'s chain.  Increment `holdng` unless already toted or the object
is the (weightless) bird.  Objects above `NOBJECTS` (fixed second
placements) change neither `place` nor `holdng`. -/
def carry (d : Dungeon) (s : GState) (object w : Int) : Option GState :=
  if object ≤ (d.N : Int) then
    if s.place object = CARRIED then some s
    else
      let s1 : GState :=
        { s with
          place := upd s.place object CARRIED
          holdng := if object ≠ d.bird then s.holdng + 1 else s.holdng }
      carryChain d s1 object w
  else carryChain d s object w

/-- `drop(object, where)`: place an object at `where`, prefixing it
onto `where`'s chain (unless `where` is `LOC_NOWHERE` or `CARRIED`).
Decrement `holdng` if it was toted (bird excepted). -/
def drop (d : Dungeon) (s : GState) (object w : Int) : GState :=
  let s1 : GState :=
    if object > (d.N : Int) then
      { s with fixed := upd s.fixed (object - (d.N : Int)) w }
    else
      let s0 : GState :=
        if s.place object = CARRIED ∧ object ≠ d.bird then
          { s with holdng := s.holdng - 1 }
        else s
      { s0 with place := upd s0.place object w }
  if w = LOC_NOWHERE ∨ w = CARRIED then s1
  else
    { s1 with
      link := upd s1.link object (s1.atloc w)
      atloc := upd s1.atloc w object }

/-- `move(object, where)`: pick the object up from wherever it is and
drop it at `where`. -/
def move (d : Dungeon) (s : GState) (object w : Int) : Option GState :=
  let from_ : Int :=
    if object > (d.N : Int) then s.fixed (object - (d.N : Int))
    else s.place object
  if from_ ≠ LOC_NOWHERE ∧ from_ ≠ CARRIED then
    (carry d s object from_).map fun s' => drop d s' object w
  else some (drop d s object w)

/-- `PROP_STASHIFY(n) = -1 - n` from `types.ts`. -/
def PROP_STASHIFY (n : Int) : Int := -1 - n

/-- `put(object, where, pval)`: `move` then stash the property value. -/
def put (d : Dungeon) (s : GState) (object w pval : Int) : Option GState :=
  (move d s object w).map fun s' =>
    { s' with prop := upd s'.prop object (PROP_STASHIFY pval) }

/-- `juggle(object)`: re-insert the object and its shadow slot at the
front of their current chains. -/
def juggle (d : Dungeon) (s : GState) (object : Int) : Option GState :=
  let i := s.place object
  let j := s.fixed object
  (move d s object i).bind fun s' => move d s' (object + (d.N : Int)) j

/-- `DESTROY(object)`: move it to `LOC_NOWHERE`. -/
def destroy (d : Dungeon) (s : GState) (object : Int) : Option GState :=
  move d s object LOC_NOWHERE

/-! ## The object-location invariant -/

/-- Ids living in the flat chain index space: objects `1..N` and shadow
slots `N+1..2N`. -/
def objIds (d : Dungeon) : List Int := intRange 1 (2 * (d.N : Int))

/-- Real location ids (excluding `LOC_NOWHERE`). -/
def realLocs (d : Dungeon) : List Int := intRange 1 (d.NL : Int)

/-- The location field that tracks an id's chain: `place` for objects,
`fixed` of the base object for shadow slots. -/
def placeOf (d : Dungeon) (s : GState) (o : Int) : Int :=
  if o ≤ (d.N : Int) then s.place o else s.fixed (o - (d.N : Int))

/-- The chain at location `L` (meaningful when the walk terminates). -/
def chainAt (d : Dungeon) (atloc link : Int → Int) (L : Int) : List Int :=
  (chainW link (chainFuel d) (atloc L)).getD []

/-- Chain well-formedness and coherence at one location, for a given
location-assignment map `f` over the id space. -/
def ChainInv (d : Dungeon) (atloc link : Int → Int) (f : Int → Int) (L : Int) : Prop :=
  (chainW link (chainFuel d) (atloc L)).isSome = true ∧
  (chainAt d atloc link L).Nodup ∧
  (∀ x ∈ chainAt d atloc link L, x ∈ objIds d) ∧
  ∀ o ∈ objIds d, (o ∈ chainAt d atloc link L ↔ f o = L)

/-- The chain structure `atloc`/`link` is coherent with the location
map `f`: every real location's chain is finite, duplicate-free, holds
only valid ids, and holds exactly the ids that `f` assigns to it. -/
def InvAux (d : Dungeon) (atloc link : Int → Int) (f : Int → Int) : Prop :=
  ∀ L ∈ realLocs d, ChainInv d atloc link f L

/-- The object-location invariant of a game state: its chains are
coherent with `placeOf`.  In particular each id is in exactly one real
location's chain when its `place`/`fixed` field is a real location, and
in no chain when that field is `CARRIED` or `LOC_NOWHERE`. -/
def objInv (d : Dungeon) (s : GState) : Prop :=
  InvAux d s.atloc s.link (placeOf d s)

instance (d : Dungeon) (atloc link : Int → Int) (f : Int → Int) (L : Int) :
    Decidable (ChainInv d atloc link f L) := by
  unfold ChainInv
  infer_instance

instance (d : Dungeon) (atloc link : Int → Int) (f : Int → Int) :
    Decidable (InvAux d atloc link f) := by
  unfold InvAux
  exact List.decidableBAll _ _

instance (d : Dungeon) (s : GState) : Decidable (objInv d s) := by
  unfold objInv
  infer_instance

/-! ### The invariant exactly as the specification states it -/

/-- The real locations whose chain reaches object `o`. -/
def chainsHolding (d : Dungeon) (s : GState) (o : Int) : List Int :=
  (realLocs d).filter fun L => (chainAt d s.atloc s.link L).contains o

/-- The specification's object invariant, word for word: every object id
in `[1, NOBJECTS]` is reachable from exactly one location's
`atloc`/`link` chain or has `place = CARRIED`; never present in two
chains, never both carried and chained, never orphaned. -/
def claimObjInv (d : Dungeon) (s : GState) : Prop :=
  ∀ o ∈ intRange 1 (d.N : Int),
    (s.place o = CARRIED ∧ chainsHolding d s o = []) ∨
    (s.place o ≠ CARRIED ∧ (chainsHolding d s o).length = 1)

instance (d : Dungeon) (s : GState) : Decidable (claimObjInv d s) := by
  unfold claimObjInv
  exact List.decidableBAll _ _

/-! ### Toy dungeon and states for concrete evaluation -/

/-- A small dungeon instance used to evaluate the embedded primitives
at concrete inputs. -/
def dObj : Dungeon where
  N := 2
  NL := 2
  ndwarves := 6
  ndeaths := 3
  maxState := 7
  isTreasure := fun _ => false
  objPlac := fun _ => 0
  objFixd := fun _ => 0
  travel := fun _ => ⟨0, 0, 0, 0, 0, 0, false, false⟩
  tkey := fun _ => 0
  cond := fun _ => 0
  bird := 2
  eggs := 1
  troll := 61
  troll2 := 62
  chasm := 63
  bear := 64
  emerald := 65
  snake := 66
  dragon := 67
  dwarfObj := 68
  food := 69
  ogre := 70
  axe := 71
  locPlover := 81
  locAlcove := 82
  locGrate := 83
  mNul := 1
  mBack := 2
  mLook := 3
  mCave := 4
  mEast := 5
  mWest := 6
  mNorth := 7
  mSouth := 8
  mNE := 9
  mNW := 10
  mSW := 11
  mSE := 12
  mUp := 13
  mDown := 14
  mForward := 15
  mLeft := 16
  mRight := 17
  mOutside := 18
  mInside := 19
  mXyzzy := 20
  mPlugh := 21
  mCrawl := 22
  mHere := 23
  aFee := 31
  aFie := 32
  aFoe := 33
  aFoo := 34
  aFum := 35
  msgBadDirection := 101
  msgUnsureFacing := 102
  msgNoInoutHere := 103
  msgNothingHappens := 104
  msgWhichWay := 105
  msgCantApply := 106
  msgTwistTurn := 107
  msgForgotPath := 108
  msgNotConnected := 109
  msgNoMoreDetail := 110
  msgFollowStream := 111
  msgNeedDetail := 112
  msgMustDrop := 113
  msgOkMan := 114
  msgStartOver := 115
  msgWellPointless := 116
  msgBirdPining := 117
  msgRidiculousAttempt := 118
  msgNothingEdible := 119
  msgBirdDevoured := 120
  msgTrollVices := 121
  msgReallyMad := 122
  msgOgreFull := 123
  msgAmGame := 124
  msgBadSave := 125
  msgVersionSkew := 126
  msgSaveTampering := 127
  stTrollPaidonce := 41
  stTrollUnpaid := 42
  stTrollGone := 43
  stBridgeWrecked := 44
  stBearDead := 45
  stUntamedBear := 46
  stSittingBear := 47
  stAxeHere := 48
  stEggsVanished := 49
  stEggsHere := 50
  stEggsDone := 51
  stDragonBars := 52
  stBirdCaged := 53

/-- A state over `dObj` satisfying the object invariant: object 1 is
chained at location 1, object 2 (the bird) is carried. -/
def sObj : GState where
  lcgX := 0
  abbnum := 1
  chloc := 0
  chloc2 := 0
  closed := false
  detail := 0
  dflag := 0
  dkill := 0
  dtotal := 0
  foobar := 0
  holdng := 0
  loc := 1
  newloc := 1
  numdie := 0
  oldloc := 1
  oldlc2 := 1
  saved := 0
  tally := 0
  seenbigwords := false
  wzdark := false
  abbrevs := fun _ => 0
  atloc := fun L => if L = 1 then 1 else 0
  dloc := fun _ => 0
  dOldloc := fun _ => 0
  place := fun o => if o = 1 then 1 else if o = 2 then CARRIED else 0
  fixed := fun _ => 0
  prop := fun _ => 0
  link := fun _ => 0

/-- State over `dObj` with object 1 and the bird (object 2) both
chained at location 1, bird caged. -/
def s5 : GState :=
  { sObj with
    place := fun o => if o = 1 then 1 else if o = 2 then 1 else 0
    prop := fun _ => 53
    atloc := fun L => if L = 1 then 1 else 0
    link := fun o => if o = 1 then 2 else 0 }

/-- Result of carrying the (caged) bird out of `s5`. -/
def s5c1 : GState :=
  { s5 with
    place := upd s5.place 2 CARRIED
    link := upd s5.link 1 (s5.link 2) }

/-- Result of carrying object 1 out of `s5`. -/
def s5c2 : GState :=
  { s5 with
    place := upd s5.place 1 CARRIED
    holdng := s5.holdng + 1
    atloc := upd s5.atloc 1 (s5.link 1) }

/-- State over `dObj` in which object 1 is being toted. -/
def s5d : GState :=
  { s5 with place := fun o => if o = 1 then CARRIED else 0 }

/-- Dwarves 3 and 4 at location 7, others dead, activity on. -/
def sdw : GState :=
  { sObj with
    dflag := 2
    dloc := fun i => if i = 3 ∨ i = 4 then 7 else 0 }

/-- All ordinary dwarves dead, activity on. -/
def sdwDead : GState := { sObj with dflag := 2, dloc := fun _ => 0 }

/-- Dwarf at the queried spot but activity counter still below 2. -/
def sdwOff : GState :=
  { sObj with dflag := 1, dloc := fun i => if i = 3 then 7 else 0 }

/-- State with a concrete RNG register value. -/
def sRng : GState := { sObj with lcgX := 12345 }

/-! ## Save/restore (`save.ts`) -/

/-- `ADVENT_MAGIC` from `types.ts`. -/
def adventMagic : String := "open-adventure\n"

/-- `SAVE_VERSION` from `types.ts`. -/
def SAVE_VERSION : Int := 31

/-- `ENDIAN_MAGIC` from `types.ts`. -/
def ENDIAN_MAGIC : Int := 2317

/-- `STATE_NOTFOUND` from `types.ts`. -/
def STATE_NOTFOUND : Int := -1

/-- `PhaseCode.GO_TOP`. -/
def GO_TOP : Int := 2

/-- `PhaseCode.GO_CLEAROBJ`. -/
def GO_CLEAROBJ : Int := 3

/-- `SaveFile` from `types.ts`. -/
structure SaveFile where
  magic : String
  version : Int
  canary : Int
  game : GState

/-- `PROP_IS_INVALID` from `types.ts`. -/
def PROP_IS_INVALID (val maxState : Int) : Bool :=
  val < -maxState - 1 || val > maxState

/-- Port of `isValid` from `save.ts`: the structural validator run on a
restored game state. -/
def isValid (d : Dungeon) (g : GState) : Bool :=
  if g.abbnum = 0 then false
  else if LCG_M ≤ g.lcgX then false
  else if g.chloc < -1 ∨ g.chloc > (d.NL : Int) ∨ g.chloc2 < -1 ∨
      g.chloc2 > (d.NL : Int) ∨ g.loc < 0 ∨ g.loc > (d.NL : Int) ∨
      g.newloc < 0 ∨ g.newloc > (d.NL : Int) ∨ g.oldloc < 0 ∨
      g.oldloc > (d.NL : Int) ∨ g.oldlc2 < 0 ∨ g.oldlc2 > (d.NL : Int) then
    false
  else if ¬(intRange 0 (d.ndwarves : Int)).all fun i =>
      decide (-1 ≤ g.dloc i ∧ g.dloc i ≤ (d.NL : Int) ∧
        -1 ≤ g.dOldloc i ∧ g.dOldloc i ≤ (d.NL : Int)) then false
  else if ¬(intRange 0 (d.N : Int)).all fun i =>
      decide (-1 ≤ g.place i ∧ g.place i ≤ (d.NL : Int) ∧
        -1 ≤ g.fixed i ∧ g.fixed i ≤ (d.NL : Int)) then false
  else if g.dtotal < 0 ∨ g.dtotal > (d.ndwarves : Int) ∨ g.dkill < 0 ∨
      g.dkill > (d.ndwarves : Int) then false
  else if (d.ndeaths : Int) ≤ g.numdie then false
  else if (((intRange 1 (d.N : Int)).filter fun t =>
      d.isTreasure t && decide (g.prop t = STATE_NOTFOUND)).length : Int) ≠
      g.tally then false
  else if ¬(intRange 0 (d.N : Int)).all fun o =>
      !PROP_IS_INVALID (g.prop o) d.maxState then false
  else if ¬(intRange 0 (d.NL : Int)).all fun L =>
      decide (0 ≤ g.atloc L ∧ g.atloc L ≤ 2 * (d.N : Int)) then false
  else if ¬(intRange 0 (2 * (d.N : Int))).all fun o =>
      decide (0 ≤ g.link o ∧ g.link o ≤ 2 * (d.N : Int)) then false
  else true

/-- Result of `restore`: final game state, emitted messages, whether
the process exited, and the returned phase code. -/
structure RestoreRes where
  game : GState
  evs : List Ev
  exited : Bool
  phase : Int

/-- Port of `restore` from `save.ts`. -/
def restore (d : Dungeon) (sv : SaveFile) (g : GState) : RestoreRes :=
  if sv.magic ≠ adventMagic ∨ sv.canary ≠ ENDIAN_MAGIC then
    ⟨g, [Ev.rsp d.msgBadSave []], false, GO_TOP⟩
  else if sv.version ≠ SAVE_VERSION then
    ⟨g, [Ev.rsp d.msgVersionSkew
      [sv.version.tdiv 10, sv.version.tmod 10,
        SAVE_VERSION.tdiv 10, SAVE_VERSION.tmod 10]], false, GO_TOP⟩
  else if isValid d sv.game = false then
    ⟨g, [Ev.rsp d.msgSaveTampering []], true, GO_TOP⟩
  else
    ⟨sv.game, [], false, GO_TOP⟩

/-- A fully valid save of `sObj` over `dObj`. -/
def svGood : SaveFile := ⟨adventMagic, 31, 2317, sObj⟩

/-- A save with a wrong magic string. -/
def svBad : SaveFile := ⟨"not-adventure\n", 31, 2317, sObj⟩

/-- A save with a version skew. -/
def svVer : SaveFile := ⟨adventMagic, 30, 2317, sObj⟩

/-- A structurally invalid save (division-by-zero guard trips). -/
def svTamper : SaveFile := ⟨adventMagic, 31, 2317, { sObj with abbnum := 0 }⟩

/-! ## Predicates from `types.ts` and actions from `actions.ts` -/

/-- `TOTING`: the object is being carried. -/
def TOTING (s : GState) (obj : Int) : Bool := s.place obj == CARRIED

/-- `AT`: the object (or its fixed slot) is at the player's location. -/
def AT (s : GState) (obj : Int) : Bool :=
  s.place obj == s.loc || s.fixed obj == s.loc

/-- `HERE`: at the player's location or carried. -/
def HERE (s : GState) (obj : Int) : Bool := AT s obj || TOTING s obj

/-- `IS_FREE` sentinel for `fixed`. -/
def IS_FREE : Int := 0

/-- `IS_FIXED` sentinel for `fixed`. -/
def IS_FIXED : Int := -1

/-- `state_change` from `format.ts`: set the property and speak the
change message. -/
def stateChange (d : Dungeon) (s : GState) (obj state : Int) :
    GState × Ev :=
  ({ s with prop := upd s.prop obj state }, Ev.psp obj 4 true state)

/-- Port of `feed` from `actions.ts` (the FEED verb dispatcher).
Returns the new state, the emitted events, and the phase code; `none`
models a diverging chain scan inside `destroy`. -/
def feed (d : Dungeon) (s : GState) (verb obj : Int) :
    Option (GState × List Ev × Int) :=
  if obj = d.bird then
    some (s, [Ev.rsp d.msgBirdPining []], GO_CLEAROBJ)
  else if obj = d.dragon then
    if s.prop d.dragon ≠ d.stDragonBars then
      some (s, [Ev.rsp d.msgRidiculousAttempt []], GO_CLEAROBJ)
    else some (s, [Ev.rsp d.msgNothingEdible []], GO_CLEAROBJ)
  else if obj = d.snake then
    if !s.closed && HERE s d.bird then
      (destroy d s d.bird).map fun s' =>
        (s', [Ev.rsp d.msgBirdDevoured []], GO_CLEAROBJ)
    else some (s, [Ev.rsp d.msgNothingEdible []], GO_CLEAROBJ)
  else if obj = d.troll then
    some (s, [Ev.rsp d.msgTrollVices []], GO_CLEAROBJ)
  else if obj = d.dwarfObj then
    if HERE s d.food then
      some ({ s with dflag := s.dflag + 2 }, [Ev.rsp d.msgReallyMad []],
        GO_CLEAROBJ)
    else some (s, [Ev.actmsg verb], GO_CLEAROBJ)
  else if obj = d.bear then
    if s.prop d.bear = d.stBearDead then
      some (s, [Ev.rsp d.msgRidiculousAttempt []], GO_CLEAROBJ)
    else if s.prop d.bear = d.stUntamedBear then
      if HERE s d.food then
        (destroy d s d.food).map fun s' =>
          let s2 : GState :=
            { s' with
              fixed := upd s'.fixed d.axe IS_FREE
              prop := upd s'.prop d.axe d.stAxeHere }
          let sc := stateChange d s2 d.bear d.stSittingBear
          (sc.1, [sc.2], GO_CLEAROBJ)
      else some (s, [Ev.rsp d.msgNothingEdible []], GO_CLEAROBJ)
    else some (s, [Ev.actmsg verb], GO_CLEAROBJ)
  else if obj = d.ogre then
    if HERE s d.food then
      some (s, [Ev.rsp d.msgOgreFull []], GO_CLEAROBJ)
    else some (s, [Ev.actmsg verb], GO_CLEAROBJ)
  else
    some (s, [Ev.rsp d.msgAmGame []], GO_CLEAROBJ)

/-- The tail of `bigwords` executed when the word is the final "foo"
of a correct sequence, with the tracking counter already cleared
(`game.foobar = WORD_EMPTY`): the eggs vanish/reappear effect. -/
def bigwordsFoo (d : Dungeon) (s2 : GState) :
    Option (GState × List Ev × Int) :=
  if s2.place d.eggs = d.objPlac d.eggs ∨
      (TOTING s2 d.eggs ∧ s2.loc = d.objPlac d.eggs) then
    some (s2, [Ev.rsp d.msgNothingHappens []], GO_CLEAROBJ)
  else
    let s3 : GState :=
      if s2.place d.eggs = LOC_NOWHERE ∧ s2.place d.troll = LOC_NOWHERE ∧
          s2.prop d.troll = d.stTrollUnpaid then
        { s2 with prop := upd s2.prop d.troll d.stTrollPaidonce }
      else s2
    let ev : Ev :=
      if HERE s3 d.eggs then Ev.psp d.eggs 1 true d.stEggsVanished
      else if s3.loc = d.objPlac d.eggs then
        Ev.psp d.eggs 1 true d.stEggsHere
      else Ev.psp d.eggs 1 true d.stEggsDone
    (move d s3 d.eggs (d.objPlac d.eggs)).map fun s4 =>
      (s4, [ev], GO_CLEAROBJ)

/-- Port of `bigwords` from `actions.ts` (fee/fie/foe/foo/fum).
`none` models a diverging chain scan inside the eggs `move`. -/
def bigwords (d : Dungeon) (st : Settings) (s : GState) (id : Int) :
    Option (GState × List Ev × Int) :=
  let foobar := |s.foobar|
  if foobar = 0 ∧ (id = d.aFie ∨ id = d.aFoe ∨ id = d.aFoo ∨ id = d.aFum)
  then
    some (s, [Ev.rsp d.msgNothingHappens []], GO_CLEAROBJ)
  else if (foobar = 0 ∧ id = d.aFee) ∨ (foobar = d.aFee ∧ id = d.aFie) ∨
      (foobar = d.aFie ∧ id = d.aFoe) ∨ (foobar = d.aFoe ∧ id = d.aFoo)
  then
    let s1 : GState := { s with foobar := id }
    if id ≠ d.aFoo then
      some (s1, [Ev.rsp d.msgOkMan []], GO_CLEAROBJ)
    else
      bigwordsFoo d { s1 with foobar := 0 }
  else
    let ev : Ev :=
      if st.oldstyle ∨ s.seenbigwords then Ev.rsp d.msgStartOver []
      else Ev.rsp d.msgWellPointless []
    some ({ s with foobar := 0 }, [ev], GO_CLEAROBJ)

/-- Dungeon for the feed scenario: bird 1, dragon 2, snake 3, troll 4,
dwarf 5, bear 6, ogre 7, food 8, axe 9. -/
def dFeed : Dungeon :=
  { dObj with
    N := 9
    bird := 1
    dragon := 2
    snake := 3
    troll := 4
    dwarfObj := 5
    bear := 6
    ogre := 7
    food := 8
    axe := 9 }

/-- `sObj` with the cave closed. -/
def sObjClosed : GState := { sObj with closed := true }

/-- Dungeon for the bigwords scenario: the eggs' home is location 1. -/
def dBig : Dungeon :=
  { dObj with objPlac := fun o => if o = 1 then 1 else 0 }

/-- State over `dBig`: player in the golden-eggs room (location 1),
eggs (object 1) chained at location 2, bird (object 2) carried. -/
def sEggs : GState :=
  { sObj with
    loc := 1
    place := fun o => if o = 1 then 2 else if o = 2 then CARRIED else 0
    atloc := fun L => if L = 2 then 1 else 0
    link := fun _ => 0 }

/-- `sEggs` with the tracking counter mid-sequence (fee spoken). -/
def sEggsFee : GState := { sEggs with foobar := 31 }

/-- Default settings: not oldstyle. -/
def st0 : Settings := ⟨false, 0⟩

/-! ## Player movement (`movement.ts`) -/

/-- `COND_NOBACK` bit. -/
def COND_NOBACK : Nat := 4

/-- `COND_ABOVE` bit. -/
def COND_ABOVE : Nat := 5

/-- `COND_FOREST` bit. -/
def COND_FOREST : Nat := 7

/-- `COND_FORCED` bit. -/
def COND_FORCED : Nat := 8

/-- `CNDBIT(conditions, loc, bit)`. -/
def CNDBIT (cond : Int → Int) (loc : Int) (bit : Nat) : Bool :=
  (cond loc).testBit bit

/-- `FORCED(conditions, loc)`. -/
def FORCED (cond : Int → Int) (loc : Int) : Bool :=
  CNDBIT cond loc COND_FORCED

/-- `traveleq`: two travel entries are equal for purposes of the skip
after a failed condition. -/
def traveleq (d : Dungeon) (a b : Int) : Bool :=
  (d.travel a).condtype == (d.travel b).condtype &&
  (d.travel a).condarg1 == (d.travel b).condarg1 &&
  (d.travel a).condarg2 == (d.travel b).condarg2 &&
  (d.travel a).desttype == (d.travel b).desttype &&
  (d.travel a).destval == (d.travel b).destval

/-- Result of `playermove`: normal return with events, a fatal
data-consistency fault (`bug` with its `BugType` code), or fuel
exhaustion (a walk the source would not complete). -/
inductive PmRes where
  | ok (s : GState) (evs : List Ev)
  | fault (code : Int) (evs : List Ev)
  | out

/-- Result of the skip-to-next-alternative do/while loop. -/
inductive SkipR where
  | stopHit
  | to (te : Int)
  | out

/-- The `do { if stop bug; ++teTmp } while (traveleq ...)` loop of
`playermove`, starting at `te` with original entry `te0`. -/
def condSkip (d : Dungeon) : Nat → Int → Int → SkipR
  | 0, _, _ => .out
  | fuel + 1, te0, te =>
    if (d.travel te).stop then .stopHit
    else if traveleq d te0 (te + 1) then condSkip d fuel te0 (te + 1)
    else .to (te + 1)

/-- Result of the entry scan for a motion verb. -/
inductive ScanR where
  | found (te : Int)
  | absent
  | out

/-- The scan for the first entry matching the motion verb (or `HERE`),
ending at the location's last entry. -/
def scanLoop (d : Dungeon) (motion : Int) : Nat → Int → ScanR
  | 0, _ => .out
  | fuel + 1, te =>
    if (d.travel te).motion = d.mHere ∨ (d.travel te).motion = motion then
      .found te
    else if (d.travel te).stop then .absent
    else scanLoop d motion fuel (te + 1)

/-- Travel-condition evaluation (the head of the L12 inner loop); a
percentage condition advances the RNG. -/
def evalCond (d : Dungeon) (s : GState) (t : TravelOp) : Bool × GState :=
  if t.condtype < 4 then
    if t.condtype = 0 ∨ t.condtype = 1 then
      if t.condarg1 = 0 then (true, s) else PCT s t.condarg1
    else if TOTING s t.condarg1 || (t.condtype == 3 && AT s t.condarg1) then
      (true, s)
    else (false, s)
  else if s.prop t.condarg1 ≠ t.condarg2 then (true, s)
  else (false, s)

/-- The direction-class switch for "can't go that way" messages. -/
def cantGoMsg (d : Dungeon) (motion : Int) : Int :=
  if motion = d.mEast ∨ motion = d.mWest ∨ motion = d.mSouth ∨
      motion = d.mNorth ∨ motion = d.mNE ∨ motion = d.mNW ∨
      motion = d.mSW ∨ motion = d.mSE ∨ motion = d.mUp ∨
      motion = d.mDown then d.msgBadDirection
  else if motion = d.mForward ∨ motion = d.mLeft ∨ motion = d.mRight then
    d.msgUnsureFacing
  else if motion = d.mOutside ∨ motion = d.mInside then d.msgNoInoutHere
  else if motion = d.mXyzzy ∨ motion = d.mPlugh then d.msgNothingHappens
  else if motion = d.mCrawl then d.msgWhichWay
  else d.msgCantApply

/-- Execute one eligible travel rule (the body after the condition
check in the L12 loop).  `skipFuel` bounds the special-travel-2 skip
loop; `cont` re-enters the L12 loop for special travel 2.  Special
travel 3 (troll bridge) manipulates the troll/bear objects and may
invoke `croak`. -/
def execRule (d : Dungeon) (skipFuel : Nat) (cont : GState → Int → PmRes)
    (s1 : GState) (te : Int) (evs : List Ev) : PmRes :=
  let s2 : GState := { s1 with newloc := (d.travel te).destval }
  if (d.travel te).desttype = 0 then .ok s2 evs
  else if (d.travel te).desttype = 2 then
    .ok { s2 with newloc := s2.loc }
      (evs ++ [Ev.rsp (d.travel te).destval []])
  else
    if s2.newloc = 1 then
      let s3 : GState :=
        { s2 with
          newloc :=
            if s2.loc = d.locPlover then d.locAlcove else d.locPlover }
      if s3.holdng > 1 ∨ (s3.holdng = 1 ∧ ¬TOTING s3 d.emerald) then
        .ok { s3 with newloc := s3.loc }
          (evs ++ [Ev.rsp d.msgMustDrop []])
      else .ok s3 evs
    else if s2.newloc = 2 then
      let s3 := drop d s2 d.emerald s2.loc
      match condSkip d skipFuel te te with
      | .stopHit => .fault 4 evs
      | .out => .out
      | .to te' => cont s3 te'
    else if s2.newloc = 3 then
      if s2.prop d.troll = d.stTrollPaidonce then
        let s3 : GState :=
          { s2 with prop := upd s2.prop d.troll d.stTrollUnpaid }
        let evs' := evs ++ [Ev.psp d.troll 1 true d.stTrollPaidonce]
        match (move d s3 d.troll2 LOC_NOWHERE).bind fun sa =>
          (move d sa (d.troll2 + (d.N : Int)) IS_FREE).bind fun sb =>
          (move d sb d.troll (d.objPlac d.troll)).bind fun sc =>
          (move d sc (d.troll + (d.N : Int)) (d.objFixd d.troll)).bind
            fun sd => juggle d sd d.chasm with
        | none => .out
        | some se => .ok { se with newloc := se.loc } evs'
      else
        let s3 : GState :=
          { s2 with
            newloc := d.objPlac d.troll + d.objFixd d.troll - s2.loc }
        let s4 : GState :=
          if s3.prop d.troll = d.stTrollUnpaid then
            { s3 with prop := upd s3.prop d.troll d.stTrollPaidonce }
          else s3
        if !TOTING s4 d.bear then .ok s4 evs
        else
          let sc := stateChange d s4 d.chasm d.stBridgeWrecked
          let s5 : GState :=
            { sc.1 with prop := upd sc.1.prop d.troll d.stTrollGone }
          let s6 := drop d s5 d.bear s5.newloc
          let s7 : GState :=
            { s6 with
              fixed := upd s6.fixed d.bear IS_FIXED
              prop := upd s6.prop d.bear d.stBearDead
              oldlc2 := s6.newloc }
          .ok s7 (evs ++ [sc.2, Ev.croakEv])
    else .fault 0 evs

/-- The L12 loop of `playermove`: evaluate conditions, skip failed
alternatives, and execute the first eligible rule. -/
def l12 (d : Dungeon) : Nat → GState → Int → List Ev → PmRes
  | 0, _, _, _ => .out
  | fuel + 1, s, te, evs =>
    let mc := evalCond d s (d.travel te)
    if mc.1 then
      execRule d (fuel + 1) (fun s' te' => l12 d fuel s' te' evs) mc.2 te
        evs
    else
      match condSkip d (fuel + 1) te te with
      | .stopHit => .fault 4 evs
      | .out => .out
      | .to te' => l12 d fuel mc.2 te' evs

/-- The ordinary-travel part of `playermove`: scan for the motion verb
starting at `te`, emit the direction-class message if absent, else run
the condition/execution loop. -/
def mainScan (d : Dungeon) (fuel : Nat) (s : GState) (motion te : Int) :
    PmRes :=
  match scanLoop d motion fuel te with
  | .out => .out
  | .absent => .ok s [Ev.rsp (cantGoMsg d motion) []]
  | .found te' => l12 d fuel s te' []

/-- Result of the "go back" search over the recorded travel entries. -/
inductive BackR where
  | notConn
  | go (m : Int)
  | out

/-- The BACK-handling loop of `playermove`: find an entry leading from
the current location to `motion` (the previous location), tracking a
forced-motion fallback in `teTmp`. -/
def backScan (d : Dungeon) (motion : Int) : Nat → Int → Int → BackR
  | 0, _, _ => .out
  | fuel + 1, te, teTmp =>
    if (d.travel te).desttype = 0 ∧ (d.travel te).destval = motion then
      .go (d.travel te).motion
    else
      let teTmp' : Int :=
        if (d.travel te).desttype = 0 ∧
            FORCED d.cond (d.travel te).destval ∧
            (d.travel (d.tkey (d.travel te).destval)).destval = motion then
          te
        else teTmp
      if ¬(d.travel te).stop then backScan d motion fuel (te + 1) teTmp'
      else if teTmp' = 0 then .notConn
      else .go (d.travel teTmp').motion

/-- Port of `playermove` from `movement.ts`.  Loops are fuel-bounded;
the injected `rspeak`/`pspeak`/`croak` callbacks become events. -/
def playermove (d : Dungeon) (fuel : Nat) (s0 : GState) (motion : Int) :
    PmRes :=
  let te := d.tkey s0.loc
  let s : GState := { s0 with newloc := s0.loc }
  if te = 0 then .fault 5 []
  else if motion = d.mNul then .ok s []
  else if motion = d.mBack then
    let motion2 := if FORCED d.cond s.oldloc then s.oldlc2 else s.oldloc
    let s2 : GState := { s with oldlc2 := s.oldloc, oldloc := s.loc }
    if CNDBIT d.cond s2.loc COND_NOBACK then
      .ok s2 [Ev.rsp d.msgTwistTurn []]
    else if motion2 = s2.loc then
      .ok s2 [Ev.rsp d.msgForgotPath []]
    else
      match backScan d motion2 fuel te 0 with
      | .out => .out
      | .notConn => .ok s2 [Ev.rsp d.msgNotConnected []]
      | .go m3 => mainScan d fuel s2 m3 (d.tkey s2.loc)
  else if motion = d.mLook then
    let evs := if s.detail < 3 then [Ev.rsp d.msgNoMoreDetail []] else []
    .ok { s with
      detail := s.detail + 1
      wzdark := false
      abbrevs := upd s.abbrevs s.loc 0 } evs
  else if motion = d.mCave then
    let isOutside := CNDBIT d.cond s.loc COND_ABOVE ||
      CNDBIT d.cond s.loc COND_FOREST
    .ok s [Ev.rsp
      (if isOutside && !(s.loc == d.locGrate) then d.msgFollowStream
        else d.msgNeedDetail) []]
  else
    let s2 : GState := { s with oldlc2 := s.oldloc, oldloc := s.loc }
    mainScan d fuel s2 motion te

/-- Travel table for the C4 witness: location 1 has a single entry
(key 1) for an unrelated motion 99. -/
def dMove : Dungeon :=
  { dObj with
    travel := fun te =>
      if te = 1 then ⟨99, 0, 0, 0, 0, 1, false, true⟩
      else ⟨0, 0, 0, 0, 0, 0, false, false⟩
    tkey := fun L => if L = 1 then 1 else 0 }

/-- Travel table for the C8 witness: special travel 1 from location 1
(Plover, with Alcove = 2) on motion 5 (east). -/
def dPlov : Dungeon :=
  { dObj with
    travel := fun te =>
      if te = 1 then ⟨5, 0, 0, 0, 1, 1, false, true⟩
      else ⟨0, 0, 0, 0, 0, 0, false, false⟩
    tkey := fun L => if L = 1 then 1 else 0
    locPlover := 1
    locAlcove := 2 }

/-- `sObj` holding two objects. -/
def sHold2 : GState := { sObj with holdng := 2 }

/-- Travel table for the C9 witness: location 1's only entry carries a
carry-condition on object 7 (not held) and is flagged `stop`. -/
def dFail : Dungeon :=
  { dObj with
    travel := fun te =>
      if te = 1 then ⟨5, 2, 7, 0, 0, 9, false, true⟩
      else ⟨0, 0, 0, 0, 0, 0, false, false⟩
    tkey := fun L => if L = 1 then 1 else 0 }

/-! # Theorems -/

@[simp] theorem upd_same (f : Int → Int) (i v : Int) : upd f i v i = v := by
  simp [upd]

@[simp] theorem upd_other (f : Int → Int) (i v x : Int) (h : x ≠ i) :
    upd f i v x = f x := by
  simp [upd, h]

theorem mem_intRangeGo {a x : Int} {n : Nat} :
    x ∈ intRangeGo a n ↔ a ≤ x ∧ x < a + n := by
  induction n generalizing a with
  | zero => simp [intRangeGo]
  | succ n ih =>
    simp only [intRangeGo, List.mem_cons, ih]
    omega

theorem mem_intRange {a b x : Int} : x ∈ intRange a b ↔ a ≤ x ∧ x ≤ b := by
  rw [intRange, mem_intRangeGo]
  omega

theorem length_intRangeGo {a : Int} {n : Nat} : (intRangeGo a n).length = n := by
  induction n generalizing a with
  | zero => rfl
  | succ n ih => simp [intRangeGo, ih]

theorem nodup_intRangeGo {a : Int} {n : Nat} : (intRangeGo a n).Nodup := by
  induction n generalizing a with
  | zero => simp [intRangeGo]
  | succ n ih =>
    refine List.nodup_cons.mpr ⟨fun hmem => ?_, ih⟩
    rw [mem_intRangeGo] at hmem
    omega

theorem nodup_intRange {a b : Int} : (intRange a b).Nodup := nodup_intRangeGo

/-! ### Chain-walk lemmas -/

theorem chainW_nil {link : Int → Int} {f : Nat} : chainW link f 0 = some [] := by
  cases f <;> simp [chainW]

theorem chainW_succ_ne {link : Int → Int} {f : Nat} {h : Int} (hh : h ≠ 0) :
    chainW link (f + 1) h =
      match chainW link f (link h) with
      | some l => some (h :: l)
      | none => none := by
  simp [chainW, hh]

theorem chainW_zero_inv {link : Int → Int} {l : List Int} {h : Int}
    (hw : chainW link 0 h = some l) : h = 0 ∧ l = [] := by
  by_cases hh : h = 0 <;> simp [chainW, hh] at hw <;> simp [hh, hw]

theorem chainW_some_inv {link : Int → Int} {f : Nat} {h : Int} {l : List Int}
    (hw : chainW link f h = some l) (hh : h ≠ 0) :
    ∃ f' l', f = f' + 1 ∧ l = h :: l' ∧ chainW link f' (link h) = some l' := by
  cases f with
  | zero => exact absurd (chainW_zero_inv hw).1 hh
  | succ f =>
    rw [chainW_succ_ne hh] at hw
    cases hcw : chainW link f (link h) with
    | none => rw [hcw] at hw; simp at hw
    | some l' =>
      rw [hcw] at hw
      simp only [Option.some.injEq] at hw
      exact ⟨f, l', rfl, hw.symm, hcw⟩

theorem chainW_mono {link : Int → Int} {f : Nat} {h : Int} {l : List Int}
    (hw : chainW link f h = some l) {f' : Nat} (hf : f ≤ f') :
    chainW link f' h = some l := by
  induction f generalizing h l f' with
  | zero =>
    obtain ⟨rfl, rfl⟩ := chainW_zero_inv hw
    exact chainW_nil
  | succ f ih =>
    by_cases hh : h = 0
    · subst hh
      rw [chainW_nil] at hw
      obtain rfl : l = [] := by simpa using hw.symm
      exact chainW_nil
    · obtain ⟨f0, l', hf0, rfl, hw'⟩ := chainW_some_inv hw hh
      obtain rfl : f0 = f := by omega
      obtain ⟨f1, hf1⟩ : ∃ f1, f' = f1 + 1 := ⟨f' - 1, by omega⟩
      subst hf1
      rw [chainW_succ_ne hh, ih hw' (by omega)]

theorem chainW_min {link : Int → Int} {f : Nat} {h : Int} {l : List Int}
    (hw : chainW link f h = some l) : chainW link l.length h = some l := by
  induction f generalizing h l with
  | zero =>
    obtain ⟨rfl, rfl⟩ := chainW_zero_inv hw
    exact chainW_nil
  | succ f ih =>
    by_cases hh : h = 0
    · subst hh
      rw [chainW_nil] at hw
      obtain rfl : l = [] := by simpa using hw.symm
      exact chainW_nil
    · obtain ⟨f0, l', hf0, rfl, hw'⟩ := chainW_some_inv hw hh
      obtain rfl : f0 = f := by omega
      rw [List.length_cons, chainW_succ_ne hh, ih hw']

theorem chainW_upd {link : Int → Int} {f : Nat} {h : Int} {l : List Int}
    (hw : chainW link f h = some l) {i v : Int} (hi : i ∉ l) :
    chainW (upd link i v) f h = some l := by
  induction f generalizing h l with
  | zero =>
    obtain ⟨rfl, rfl⟩ := chainW_zero_inv hw
    exact chainW_nil
  | succ f ih =>
    by_cases hh : h = 0
    · subst hh
      rw [chainW_nil] at hw
      obtain rfl : l = [] := by simpa using hw.symm
      exact chainW_nil
    · obtain ⟨f0, l', hf0, rfl, hw'⟩ := chainW_some_inv hw hh
      obtain rfl : f0 = f := by omega
      have hih : i ∉ l' := fun hmem => hi (List.mem_cons_of_mem _ hmem)
      have hne : h ≠ i := fun he => hi (he ▸ List.mem_cons_self _ _)
      rw [chainW_succ_ne hh, upd_other link i v h hne, ih hw' hih]

theorem findLoop_remove {link : Int → Int} {o : Int} {f : Nat} {h : Int}
    {l : List Int} (hw : chainW link f h = some l) (hnd : l.Nodup)
    (ho : o ∈ l) (hh : h ≠ o) :
    ∃ p, findLoop link o f h = some p ∧ p ∈ l ∧ link p = o ∧
      chainW (upd link p (link o)) f h = some (l.erase o) := by
  induction f generalizing h l with
  | zero =>
    obtain ⟨rfl, rfl⟩ := chainW_zero_inv hw
    simp at ho
  | succ f ih =>
    have hh0 : h ≠ 0 := by
      intro he
      subst he
      rw [chainW_nil] at hw
      obtain rfl : l = [] := by simpa using hw.symm
      simp at ho
    obtain ⟨f0, l', hf0, rfl, hw'⟩ := chainW_some_inv hw hh0
    obtain rfl : f0 = f := by omega
    have hol' : o ∈ l' := by
      rcases List.mem_cons.mp ho with he | hm
      · exact absurd he.symm hh
      · exact hm
    have hh_notmem : h ∉ l' := (List.nodup_cons.mp hnd).1
    by_cases hl : link h = o
    · -- predecessor is the head itself
      refine ⟨h, ?_, List.mem_cons_self _ _, hl, ?_⟩
      · rw [findLoop, if_pos hl]
      · have ho0 : o ≠ 0 := by
          intro he
          rw [hl, he, chainW_nil] at hw'
          obtain rfl : l' = [] := by simpa using hw'.symm
          simp at hol'
        rw [hl] at hw'
        obtain ⟨f1, l'', hf1, rfl, hw''⟩ := chainW_some_inv hw' ho0
        have herase : (h :: o :: l'').erase o = h :: l'' := by
          rw [List.erase_cons_tail, List.erase_cons_head]
          simp only [beq_iff_eq]
          exact hh
        rw [herase]
        have hnotmem'' : h ∉ l'' := fun hm => hh_notmem (List.mem_cons_of_mem _ hm)
        have step : chainW (upd link h (link o)) f1 (link o) = some l'' :=
          chainW_upd hw'' hnotmem''
        have step2 := chainW_mono step (show f1 ≤ f1 + 1 by omega)
        rw [chainW_succ_ne hh0, upd_same, hf1, step2]
    · -- predecessor is further down the chain
      obtain ⟨p, hfind, hpmem, hlp, hcw⟩ := ih hw' (List.nodup_cons.mp hnd).2 hol' hl
      have hhp : h ≠ p := fun he => hh_notmem (he ▸ hpmem)
      refine ⟨p, ?_, List.mem_cons_of_mem _ hpmem, hlp, ?_⟩
      · rw [findLoop, if_neg hl, hfind]
      · have herase : (h :: l').erase o = h :: l'.erase o := by
          rw [List.erase_cons_tail]
          simp only [beq_iff_eq]
          exact hh
        rw [herase, chainW_succ_ne hh0, upd_other link p (link o) h hhp, hcw]

theorem chainW_length_le {d : Dungeon} {link : Int → Int} {f : Nat} {h : Int}
    {l : List Int} (hw : chainW link f h = some l) (hnd : l.Nodup)
    (hids : ∀ x ∈ l, x ∈ objIds d) : l.length ≤ 2 * d.N := by
  have hsub : l ⊆ objIds d := hids
  have hsp := (List.Nodup.subperm hnd hsub).length_le
  have hlen : (objIds d).length = (2 * (d.N : Int) + 1 - 1).toNat := by
    rw [objIds, intRange, length_intRangeGo]
  omega

theorem mem_objIds {d : Dungeon} {o : Int} :
    o ∈ objIds d ↔ 1 ≤ o ∧ o ≤ 2 * (d.N : Int) := mem_intRange

theorem mem_realLocs {d : Dungeon} {L : Int} :
    L ∈ realLocs d ↔ 1 ≤ L ∧ L ≤ (d.NL : Int) := mem_intRange

/-! ### Invariant preservation building blocks -/

theorem ChainInv_elim {d : Dungeon} {atloc link f : Int → Int} {L : Int}
    (h : ChainInv d atloc link f L) :
    ∃ l, chainW link (chainFuel d) (atloc L) = some l ∧ l.Nodup ∧
      (∀ x ∈ l, x ∈ objIds d) ∧ ∀ o ∈ objIds d, (o ∈ l ↔ f o = L) := by
  obtain ⟨hs, hnd, hids, hmem⟩ := h
  obtain ⟨l, hl⟩ := Option.isSome_iff_exists.mp hs
  rw [chainAt] at hnd hids hmem
  rw [hl] at hnd hids hmem
  exact ⟨l, hl, hnd, hids, hmem⟩

theorem ChainInv_intro {d : Dungeon} {atloc link f : Int → Int} {L : Int}
    {l : List Int} (hl : chainW link (chainFuel d) (atloc L) = some l)
    (hnd : l.Nodup) (hids : ∀ x ∈ l, x ∈ objIds d)
    (hmem : ∀ o ∈ objIds d, (o ∈ l ↔ f o = L)) :
    ChainInv d atloc link f L := by
  refine ⟨by rw [hl]; rfl, ?_, ?_, ?_⟩ <;> rw [chainAt, hl] <;> assumption

/-- Moving an unchained id to a non-real location touches no chain. -/
theorem InvAux_retarget {d : Dungeon} {atloc link f : Int → Int}
    (hInv : InvAux d atloc link f) {o z : Int}
    (ho : o ∈ objIds d) (hfo : f o ∉ realLocs d) (hz : z ∉ realLocs d) :
    InvAux d atloc link (upd f o z) := by
  intro L hL
  obtain ⟨l, hl, hnd, hids, hmem⟩ := ChainInv_elim (hInv L hL)
  refine ChainInv_intro hl hnd hids fun x hx => ?_
  by_cases hxo : x = o
  · subst hxo
    have hnotl : x ∉ l := fun hm => hfo (((hmem x hx).mp hm) ▸ hL)
    have hzL : z ≠ L := fun he => hz (he ▸ hL)
    simp [hnotl, hzL]
  · rw [upd_other f o z x hxo]
    exact hmem x hx

/-- Prefix-inserting an unchained id onto the chain at a real location
re-establishes coherence for the updated location map. -/
theorem chain_insert {d : Dungeon} {atloc link f : Int → Int}
    (hInv : InvAux d atloc link f) {o w : Int}
    (ho : o ∈ objIds d) (hfo : f o ∉ realLocs d) (hw : w ∈ realLocs d) :
    InvAux d (upd atloc w o) (upd link o (atloc w)) (upd f o w) := by
  intro L hL
  obtain ⟨l, hl, hnd, hids, hmem⟩ := ChainInv_elim (hInv L hL)
  have honl : o ∉ l := fun hm => hfo (((hmem o ho).mp hm) ▸ hL)
  by_cases hLw : L = w
  · subst hLw
    have hmin := chainW_min hl
    have hupd := chainW_upd hmin (i := o) (v := atloc L) honl
    have hne0 : o ≠ 0 := by
      have := mem_objIds.mp ho
      omega
    have hcons : chainW (upd link o (atloc L)) (l.length + 1) o = some (o :: l) := by
      rw [chainW_succ_ne hne0, upd_same, hupd]
    have hlen := chainW_length_le (d := d) hl hnd hids
    have hfull : chainW (upd link o (atloc L)) (chainFuel d) o = some (o :: l) :=
      chainW_mono hcons (by unfold chainFuel; omega)
    refine ChainInv_intro (l := o :: l) (by rw [upd_same]; exact hfull)
      (List.nodup_cons.mpr ⟨honl, hnd⟩)
      (fun x hx => ?_) (fun x hx => ?_)
    · rcases List.mem_cons.mp hx with rfl | hm
      · exact ho
      · exact hids x hm
    · by_cases hxo : x = o
      · subst hxo
        simp
      · rw [upd_other f o L x hxo]
        simp only [List.mem_cons, hxo, false_or]
        exact hmem x hx
  · have hLne : L ≠ w := hLw
    refine ChainInv_intro (l := l)
      (by rw [upd_other atloc w o L hLne]; exact chainW_upd hl honl)
      hnd hids (fun x hx => ?_)
    by_cases hxo : x = o
    · subst hxo
      have hnotl : x ∉ l := fun hm => hfo (((hmem x hx).mp hm) ▸ hL)
      have hwL : w ≠ L := fun he => hLne he.symm
      simp [hnotl, hwL]
    · rw [upd_other f o w x hxo]
      exact hmem x hx

/-- The chain-detach step of `carry`: under coherence at map `f`, with
`o` chained at the real location `w = f o`, the detach succeeds, leaves
every field but `atloc`/`link` alone, and the chains become coherent
with `o` retargeted to any non-real location. -/
theorem carryChain_spec {d : Dungeon} {s : GState} {f : Int → Int} {o w z : Int}
    (hInv : InvAux d s.atloc s.link f) (ho : o ∈ objIds d) (hfo : f o = w)
    (hw : w ∈ realLocs d) (hz : z ∉ realLocs d) :
    ∃ al lk, carryChain d s o w = some { s with atloc := al, link := lk } ∧
      InvAux d al lk (upd f o z) := by
  obtain ⟨l, hl, hnd, hids, hmem⟩ := ChainInv_elim (hInv w hw)
  have hol : o ∈ l := (hmem o ho).mpr hfo
  have hzw : z ≠ w := fun he => hz (he ▸ hw)
  by_cases hhead : s.atloc w = o
  · -- head removal
    obtain ⟨f', l', hf', rfl, hw'⟩ := chainW_some_inv hl (hhead ▸ (by
      have := mem_objIds.mp ho
      omega : s.atloc w ≠ 0))
    refine ⟨upd s.atloc w (s.link o), s.link, ?_, ?_⟩
    · rw [carryChain, if_pos hhead]
    · intro L hL
      by_cases hLw : L = w
      · subst hLw
        have hw2 : chainW s.link (chainFuel d) (s.link o) = some l' := by
          have hh : s.atloc L = o := hhead
          rw [← hh]
          exact chainW_mono hw' (by omega)
        refine ChainInv_intro (l := l') (by rw [upd_same]; exact hw2)
          (List.nodup_cons.mp hnd).2
          (fun x hx => hids x (List.mem_cons_of_mem _ hx))
          (fun x hx => ?_)
        by_cases hxo : x = o
        · subst hxo
          have : x ∉ l' := by
            have := List.nodup_cons.mp hnd
            rw [hhead] at this
            exact this.1
          simp [this, hzw, hhead]
        · rw [upd_other f o z x hxo]
          have := hmem x hx
          rw [hhead] at this
          simp only [List.mem_cons, hxo, false_or] at this
          exact this
      · obtain ⟨m, hm, hmnd, hmids, hmmem⟩ := ChainInv_elim (hInv L hL)
        refine ChainInv_intro (l := m)
          (by rw [upd_other s.atloc w (s.link o) L hLw]; exact hm)
          hmnd hmids (fun x hx => ?_)
        by_cases hxo : x = o
        · subst hxo
          have hnotm : x ∉ m := fun hmm => (by
            have := (hmmem x hx).mp hmm
            rw [hfo] at this
            exact hLw this.symm : False)
          have hzL : z ≠ L := fun he => hz (he ▸ hL)
          simp [hnotm, hzL]
        · rw [upd_other f o z x hxo]
          exact hmmem x hx
  · -- removal from the middle of the chain
    obtain ⟨p, hfind, hpmem, hlp, hcw⟩ := findLoop_remove hl hnd hol hhead
    refine ⟨s.atloc, upd s.link p (s.link o), ?_, ?_⟩
    · rw [carryChain, if_neg hhead, hfind]
    · intro L hL
      by_cases hLw : L = w
      · subst hLw
        refine ChainInv_intro (l := l.erase o) hcw (hnd.erase o)
          (fun x hx => hids x (List.mem_of_mem_erase hx))
          (fun x hx => ?_)
        by_cases hxo : x = o
        · subst hxo
          simp [List.Nodup.not_mem_erase hnd, hzw]
        · rw [upd_other f o z x hxo, hnd.mem_erase_iff]
          simp only [hxo, ne_eq, not_false_eq_true, true_and]
          exact hmem x hx
      · obtain ⟨m, hm, hmnd, hmids, hmmem⟩ := ChainInv_elim (hInv L hL)
        have hpnotm : p ∉ m := fun hmm => (by
          have h1 := (hmmem p (hids p hpmem)).mp hmm
          have h2 := (hmem p (hids p hpmem)).mp hpmem
          rw [h2] at h1
          exact hLw h1.symm : False)
        refine ChainInv_intro (l := m) (chainW_upd hm hpnotm)
          hmnd hmids (fun x hx => ?_)
        by_cases hxo : x = o
        · subst hxo
          have hnotm : x ∉ m := fun hmm => (by
            have := (hmmem x hx).mp hmm
            rw [hfo] at this
            exact hLw this.symm : False)
          have hzL : z ≠ L := fun he => hz (he ▸ hL)
          simp [hnotm, hzL]
        · rw [upd_other f o z x hxo]
          exact hmmem x hx

/-! ### Primitive-level specifications -/

theorem placeOf_upd_place {d : Dungeon} {s s' : GState} {o w : Int}
    (hoN : o ≤ (d.N : Int)) (hp : s'.place = upd s.place o w)
    (hf : s'.fixed = s.fixed) :
    placeOf d s' = upd (placeOf d s) o w := by
  funext x
  by_cases hxo : x = o
  · subst hxo
    simp [placeOf, hoN, hp]
  · by_cases hx : x ≤ (d.N : Int) <;>
      simp [placeOf, hx, hp, hf, upd_other _ _ _ _ hxo]

theorem placeOf_upd_fixed {d : Dungeon} {s s' : GState} {o w : Int}
    (hoN : (d.N : Int) < o) (hp : s'.place = s.place)
    (hf : s'.fixed = upd s.fixed (o - (d.N : Int)) w) :
    placeOf d s' = upd (placeOf d s) o w := by
  funext x
  by_cases hxo : x = o
  · subst hxo
    simp [placeOf, not_le.mpr hoN, hf]
  · by_cases hx : x ≤ (d.N : Int)
    · simp [placeOf, hx, hp, upd_other _ _ _ _ hxo]
    · have hxn : x - (d.N : Int) ≠ o - (d.N : Int) := fun he => hxo (by omega)
      simp [placeOf, hx, hf, upd_other _ _ _ _ hxo, upd_other _ _ _ _ hxn]

/-- Unfolded form of `drop`: field-by-field description. -/
theorem drop_fields (d : Dungeon) (s : GState) (o w : Int) :
    (drop d s o w).place =
        (if o > (d.N : Int) then s.place else upd s.place o w) ∧
      (drop d s o w).fixed =
        (if o > (d.N : Int) then upd s.fixed (o - (d.N : Int)) w else s.fixed) ∧
      (drop d s o w).holdng =
        (if ¬o > (d.N : Int) ∧ s.place o = CARRIED ∧ o ≠ d.bird then
          s.holdng - 1 else s.holdng) ∧
      (drop d s o w).atloc =
        (if w = LOC_NOWHERE ∨ w = CARRIED then s.atloc else upd s.atloc w o) ∧
      (drop d s o w).link =
        (if w = LOC_NOWHERE ∨ w = CARRIED then s.link
          else upd s.link o (s.atloc w)) ∧
      (drop d s o w).loc = s.loc ∧ (drop d s o w).newloc = s.newloc ∧
      (drop d s o w).oldloc = s.oldloc ∧ (drop d s o w).oldlc2 = s.oldlc2 ∧
      (drop d s o w).closed = s.closed ∧ (drop d s o w).prop = s.prop ∧
      (drop d s o w).foobar = s.foobar ∧ (drop d s o w).dflag = s.dflag ∧
      (drop d s o w).lcgX = s.lcgX ∧
      (drop d s o w).seenbigwords = s.seenbigwords := by
  simp only [drop]
  split_ifs with h1 h2 h2 h3 h3 <;> simp_all <;> try rfl

/-- `drop` re-establishes chain coherence for the updated location map,
provided the dropped id is not currently in any chain. -/
theorem drop_chain_spec {d : Dungeon} {s : GState} {f : Int → Int} {o w : Int}
    (hInv : InvAux d s.atloc s.link f) (ho : o ∈ objIds d)
    (hfo : f o ∉ realLocs d)
    (hw : w ∈ realLocs d ∨ w = LOC_NOWHERE ∨ w = CARRIED) :
    InvAux d (drop d s o w).atloc (drop d s o w).link (upd f o w) := by
  obtain ⟨-, -, -, hat, hlk, -⟩ := drop_fields d s o w
  rcases hw with hw | hw
  · have hnot : ¬(w = LOC_NOWHERE ∨ w = CARRIED) := by
      have := mem_realLocs.mp hw
      rw [LOC_NOWHERE, CARRIED]
      omega
    rw [hat, if_neg hnot, hlk, if_neg hnot]
    exact chain_insert hInv ho hfo hw
  · have hz : w ∉ realLocs d := by
      rw [mem_realLocs, LOC_NOWHERE, CARRIED] at *
      omega
    rw [hat, if_pos hw, hlk, if_pos hw]
    exact InvAux_retarget hInv ho hfo hz

/-- `drop` of an unchained object preserves the object-location
invariant. -/
theorem drop_objInv {d : Dungeon} {s : GState} {o w : Int}
    (hInv : objInv d s) (ho : o ∈ objIds d)
    (hfo : placeOf d s o ∉ realLocs d)
    (hw : w ∈ realLocs d ∨ w = LOC_NOWHERE ∨ w = CARRIED) :
    objInv d (drop d s o w) := by
  have h := drop_chain_spec hInv ho hfo hw
  obtain ⟨hpl, hfx, -⟩ := drop_fields d s o w
  have hple : placeOf d (drop d s o w) = upd (placeOf d s) o w := by
    by_cases hoN : o > (d.N : Int)
    · exact placeOf_upd_fixed hoN (by rw [hpl, if_pos hoN])
        (by rw [hfx, if_pos hoN])
    · exact placeOf_upd_place (by omega) (by rw [hpl, if_neg hoN])
        (by rw [hfx, if_neg hoN])
  rw [objInv, hple]
  exact h

/-- `carry` of an already-carried object is the identity. -/
theorem carry_carried {d : Dungeon} {s : GState} {o w : Int}
    (hoN : o ≤ (d.N : Int)) (hc : s.place o = CARRIED) :
    carry d s o w = some s := by
  rw [carry, if_pos hoN, if_pos hc]

/-- `carry` of an object chained at the real location `w` succeeds,
detaches it, marks it carried, and bumps `holdng` (bird excepted). -/
theorem carry_active_spec {d : Dungeon} {s : GState} {o w : Int}
    (hInv : objInv d s) (ho : o ∈ objIds d) (hoN : o ≤ (d.N : Int))
    (hpl : s.place o = w) (hw : w ∈ realLocs d) :
    ∃ s', carry d s o w = some s' ∧ objInv d s' ∧
      s'.place = upd s.place o CARRIED ∧ s'.fixed = s.fixed ∧
      s'.holdng = (if o ≠ d.bird then s.holdng + 1 else s.holdng) ∧
      s'.loc = s.loc ∧ s'.newloc = s.newloc ∧ s'.oldloc = s.oldloc ∧
      s'.oldlc2 = s.oldlc2 ∧ s'.closed = s.closed ∧ s'.prop = s.prop ∧
      s'.foobar = s.foobar ∧ s'.dflag = s.dflag ∧ s'.lcgX = s.lcgX ∧
      s'.seenbigwords = s.seenbigwords := by
  have hnc : s.place o ≠ CARRIED := by
    have := mem_realLocs.mp hw
    rw [CARRIED]
    omega
  have hfo : placeOf d s o = w := by rw [placeOf, if_pos hoN, hpl]
  have hz : CARRIED ∉ realLocs d := by
    rw [mem_realLocs, CARRIED]
    omega
  set s1 : GState :=
    { s with
      place := upd s.place o CARRIED
      holdng := if o ≠ d.bird then s.holdng + 1 else s.holdng } with hs1
  have hInv1 : InvAux d s1.atloc s1.link (placeOf d s) := hInv
  obtain ⟨al, lk, hcc, hInv2⟩ :=
    carryChain_spec (s := s1) hInv1 ho hfo hw hz
  refine ⟨{ s1 with atloc := al, link := lk }, ?_, ?_, rfl, rfl, rfl, rfl,
    rfl, rfl, rfl, rfl, rfl, rfl, rfl, rfl, rfl⟩
  · rw [carry, if_pos hoN, if_neg hnc, ← hs1]
    exact hcc
  · rw [objInv]
    have hple : placeOf d { s1 with atloc := al, link := lk } =
        upd (placeOf d s) o CARRIED :=
      placeOf_upd_place hoN rfl rfl
    rw [hple]
    exact hInv2

theorem upd_upd (f : Int → Int) (i a b : Int) :
    upd (upd f i a) i b = upd f i b := by
  funext x
  by_cases hx : x = i <;> simp [upd, hx]

/-- Full specification of `move`: under the invariant, with a valid id
whose tracked location is a real location, `LOC_NOWHERE` or `CARRIED`,
and a destination of the same kind, `move` succeeds, preserves the
invariant, retargets exactly the moved id, and fixes `holdng` except
for the held-object drop case. -/
theorem move_spec {d : Dungeon} {s : GState} {o w : Int}
    (hInv : objInv d s) (ho : o ∈ objIds d)
    (hfrom : placeOf d s o ∈ realLocs d ∨ placeOf d s o = LOC_NOWHERE ∨
      placeOf d s o = CARRIED)
    (hw : w ∈ realLocs d ∨ w = LOC_NOWHERE ∨ w = CARRIED) :
    ∃ s', move d s o w = some s' ∧ objInv d s' ∧
      (o ≤ (d.N : Int) → s'.place = upd s.place o w ∧ s'.fixed = s.fixed) ∧
      ((d.N : Int) < o → s'.place = s.place ∧
        s'.fixed = upd s.fixed (o - (d.N : Int)) w) ∧
      s'.holdng = (if o ≤ (d.N : Int) ∧ s.place o = CARRIED ∧ o ≠ d.bird then
        s.holdng - 1 else s.holdng) ∧
      s'.loc = s.loc ∧ s'.newloc = s.newloc ∧ s'.oldloc = s.oldloc ∧
      s'.oldlc2 = s.oldlc2 ∧ s'.closed = s.closed ∧ s'.prop = s.prop ∧
      s'.foobar = s.foobar ∧ s'.dflag = s.dflag ∧ s'.lcgX = s.lcgX ∧
      s'.seenbigwords = s.seenbigwords := by
  by_cases hoN : o ≤ (d.N : Int)
  · -- ordinary object: `from` is its place
    have hfromEq : (if o > (d.N : Int) then s.fixed (o - (d.N : Int))
        else s.place o) = s.place o := by
      rw [if_neg (not_lt.mpr hoN)]
    have hplaceOf : placeOf d s o = s.place o := by
      rw [placeOf, if_pos hoN]
    rcases hfrom with hr | hr
    · -- detach via carry, then drop
      rw [hplaceOf] at hr
      have hplne : s.place o ≠ CARRIED := by
        have := mem_realLocs.mp hr
        rw [CARRIED]
        omega
      have hmove : move d s o w = (carry d s o (s.place o)).map
          fun s' => drop d s' o w := by
        rw [move, hfromEq, if_pos]
        have := mem_realLocs.mp hr
        rw [LOC_NOWHERE, CARRIED]
        omega
      obtain ⟨s2, hcarry, hInv2, hpl2, hfx2, hhold2, hl, hn, ho1, ho2, hc,
        hp, hf, hd, hx, hs⟩ := carry_active_spec hInv ho hoN rfl hr
      have hpl2o : s2.place o = CARRIED := by rw [hpl2, upd_same]
      have hfo2 : placeOf d s2 o ∉ realLocs d := by
        rw [placeOf, if_pos hoN, hpl2o, mem_realLocs, CARRIED]
        omega
      obtain ⟨hdp, hdf, hdh, -, -, dl, dn, do1, do2, dc, dp, df, dd, dx, ds⟩ :=
        drop_fields d s2 o w
      refine ⟨drop d s2 o w, ?_, drop_objInv hInv2 ho hfo2 hw, ?_, ?_, ?_,
        dl.trans hl, dn.trans hn, do1.trans ho1, do2.trans ho2, dc.trans hc,
        dp.trans hp, df.trans hf, dd.trans hd, dx.trans hx, ds.trans hs⟩
      · rw [hmove, hcarry, Option.map_some']
      · intro _
        constructor
        · rw [hdp, if_neg (not_lt.mpr hoN), hpl2, upd_upd]
        · rw [hdf, if_neg (not_lt.mpr hoN), hfx2]
      · intro hcon
        omega
      · have hcond : (¬o > (d.N : Int) ∧ s2.place o = CARRIED ∧ o ≠ d.bird) ↔
            o ≠ d.bird :=
          ⟨fun h => h.2.2, fun h => ⟨not_lt.mpr hoN, hpl2o, h⟩⟩
        have hcond2 : ¬(o ≤ (d.N : Int) ∧ s.place o = CARRIED ∧ o ≠ d.bird) :=
          fun h => hplne h.2.1
        rw [hdh, hhold2, if_congr hcond rfl rfl, if_neg hcond2]
        by_cases hb : o = d.bird
        · simp [hb]
        · simp only [hb, ne_eq, not_false_eq_true, if_true]
          omega
    · -- already unchained: straight drop
      have hmove : move d s o w = some (drop d s o w) := by
        rw [move, hfromEq, if_neg]
        rw [hplaceOf] at hr
        rcases hr with hr | hr <;> simp [hr]
      have hfo : placeOf d s o ∉ realLocs d := by
        intro hmem
        rw [mem_realLocs] at hmem
        rcases hr with hr | hr <;> rw [hr] at hmem <;>
          simp only [LOC_NOWHERE, CARRIED] at hmem <;> omega
      obtain ⟨hdp, hdf, hdh, -, -, hrest⟩ := drop_fields d s o w
      refine ⟨drop d s o w, hmove, drop_objInv hInv ho hfo hw, ?_, ?_, ?_,
        hrest⟩
      · intro _
        exact ⟨by rw [hdp, if_neg (not_lt.mpr hoN)],
          by rw [hdf, if_neg (not_lt.mpr hoN)]⟩
      · intro hcon
        omega
      · have hiff : (¬o > (d.N : Int) ∧ s.place o = CARRIED ∧ o ≠ d.bird) ↔
            (o ≤ (d.N : Int) ∧ s.place o = CARRIED ∧ o ≠ d.bird) := by
          constructor <;> rintro ⟨h1, h2⟩ <;> exact ⟨by omega, h2⟩
        rw [hdh, if_congr hiff rfl rfl]
  · -- shadow slot: `from` is the base object's fixed field
    have hoN' : (d.N : Int) < o := not_le.mp hoN
    have hfromEq : (if o > (d.N : Int) then s.fixed (o - (d.N : Int))
        else s.place o) = s.fixed (o - (d.N : Int)) := if_pos hoN'
    have hplaceOf : placeOf d s o = s.fixed (o - (d.N : Int)) := by
      rw [placeOf, if_neg hoN]
    have hzc : CARRIED ∉ realLocs d := by
      rw [mem_realLocs, CARRIED]
      omega
    rcases hfrom with hr | hr
    · -- detach via carryChain, then drop
      rw [hplaceOf] at hr
      have hmove0 : move d s o w = (carry d s o (s.fixed (o - (d.N : Int)))).map
          fun s' => drop d s' o w := by
        rw [move, hfromEq, if_pos]
        have := mem_realLocs.mp hr
        rw [LOC_NOWHERE, CARRIED]
        omega
      obtain ⟨al, lk, hcc, hInv2⟩ := carryChain_spec (s := s) (z := CARRIED)
        hInv ho hplaceOf hr hzc
      set s2 : GState := { s with atloc := al, link := lk } with hs2
      have hcarry : carry d s o (s.fixed (o - (d.N : Int))) = some s2 := by
        rw [carry, if_neg hoN]
        exact hcc
      have hInv2' : InvAux d s2.atloc s2.link (upd (placeOf d s) o CARRIED) :=
        hInv2
      have hfo2 : upd (placeOf d s) o CARRIED o ∉ realLocs d := by
        rw [upd_same]
        exact hzc
      have hInv3 := drop_chain_spec (s := s2) hInv2' ho hfo2 hw
      rw [upd_upd] at hInv3
      obtain ⟨hdp, hdf, hdh, -, -, dl, dn, do1, do2, dc, dp, df, dd, dx, ds⟩ :=
        drop_fields d s2 o w
      have hObj : objInv d (drop d s2 o w) := by
        rw [objInv]
        have hple : placeOf d (drop d s2 o w) = upd (placeOf d s) o w := by
          have h1 : placeOf d s2 = placeOf d s := rfl
          have h2 : placeOf d (drop d s2 o w) = upd (placeOf d s2) o w :=
            placeOf_upd_fixed hoN'
              (by rw [hdp, if_pos hoN']) (by rw [hdf, if_pos hoN'])
          rw [h2, h1]
        rw [hple]
        exact hInv3
      refine ⟨drop d s2 o w, ?_, hObj, ?_, ?_, ?_, dl, dn, do1, do2, dc, dp,
        df, dd, dx, ds⟩
      · rw [hmove0, hcarry, Option.map_some']
      · intro hcon
        omega
      · intro _
        exact ⟨by rw [hdp, if_pos hoN'], by rw [hdf, if_pos hoN']⟩
      · have hc1 : ¬(¬o > (d.N : Int) ∧ s2.place o = CARRIED ∧ o ≠ d.bird) :=
          fun h => h.1 hoN'
        have hc2 : ¬(o ≤ (d.N : Int) ∧ s.place o = CARRIED ∧ o ≠ d.bird) :=
          fun h => hoN h.1
        rw [hdh, if_neg hc1, if_neg hc2]
    · -- already unchained: straight drop
      have hmove : move d s o w = some (drop d s o w) := by
        rw [move, hfromEq, if_neg]
        rw [hplaceOf] at hr
        rcases hr with hr | hr <;> simp [hr]
      have hfo : placeOf d s o ∉ realLocs d := by
        intro hmem
        rw [mem_realLocs] at hmem
        rcases hr with hr | hr <;> rw [hr] at hmem <;>
          simp only [LOC_NOWHERE, CARRIED] at hmem <;> omega
      obtain ⟨hdp, hdf, hdh, -, -, hrest⟩ := drop_fields d s o w
      refine ⟨drop d s o w, hmove, drop_objInv hInv ho hfo hw, ?_, ?_, ?_,
        hrest⟩
      · intro hcon
        omega
      · intro _
        exact ⟨by rw [hdp, if_pos hoN'], by rw [hdf, if_pos hoN']⟩
      · have hc1 : ¬(¬o > (d.N : Int) ∧ s.place o = CARRIED ∧ o ≠ d.bird) :=
          fun h => h.1 hoN'
        have hc2 : ¬(o ≤ (d.N : Int) ∧ s.place o = CARRIED ∧ o ≠ d.bird) :=
          fun h => hoN h.1
        rw [hdh, if_neg hc1, if_neg hc2]

/-- `objInv` ignores the `prop` field. -/
theorem objInv_set_prop {d : Dungeon} {s : GState} (h : objInv d s)
    (p : Int → Int) : objInv d { s with prop := p } := h

theorem put_spec {d : Dungeon} {s : GState} {o w pval : Int}
    (hInv : objInv d s) (ho : o ∈ objIds d)
    (hfrom : placeOf d s o ∈ realLocs d ∨ placeOf d s o = LOC_NOWHERE ∨
      placeOf d s o = CARRIED)
    (hw : w ∈ realLocs d ∨ w = LOC_NOWHERE ∨ w = CARRIED) :
    ∃ s', put d s o w pval = some s' ∧ objInv d s' := by
  obtain ⟨s2, hm, hInv2, -⟩ := move_spec hInv ho hfrom hw
  exact ⟨{ s2 with prop := upd s2.prop o (PROP_STASHIFY pval) },
    by rw [put, hm, Option.map_some'], objInv_set_prop hInv2 _⟩

theorem juggle_spec {d : Dungeon} {s : GState} {o : Int}
    (hInv : objInv d s) (ho1 : 1 ≤ o) (hoN : o ≤ (d.N : Int))
    (hpl : s.place o ∈ realLocs d ∨ s.place o = LOC_NOWHERE ∨
      s.place o = CARRIED)
    (hfx : s.fixed o ∈ realLocs d ∨ s.fixed o = LOC_NOWHERE ∨
      s.fixed o = CARRIED) :
    ∃ s', juggle d s o = some s' ∧ objInv d s' := by
  have ho : o ∈ objIds d := mem_objIds.mpr ⟨ho1, by omega⟩
  have hfrom1 : placeOf d s o ∈ realLocs d ∨ placeOf d s o = LOC_NOWHERE ∨
      placeOf d s o = CARRIED := by
    rw [placeOf, if_pos hoN]
    exact hpl
  obtain ⟨s2, hm1, hInv2, hple, -, -, -⟩ :=
    move_spec hInv ho hfrom1 hpl
  obtain ⟨hp2, hf2⟩ := hple hoN
  have ho2 : o + (d.N : Int) ∈ objIds d := mem_objIds.mpr ⟨by omega, by omega⟩
  have hsub : o + (d.N : Int) - (d.N : Int) = o := by ring
  have hfrom2 : placeOf d s2 (o + (d.N : Int)) ∈ realLocs d ∨
      placeOf d s2 (o + (d.N : Int)) = LOC_NOWHERE ∨
      placeOf d s2 (o + (d.N : Int)) = CARRIED := by
    rw [placeOf, if_neg (by omega), hsub, hf2]
    exact hfx
  obtain ⟨s3, hm2, hInv3, -⟩ := move_spec hInv2 ho2 hfrom2 (by
    rw [placeOf, if_neg (by omega : ¬o + (d.N : Int) ≤ (d.N : Int)), hsub,
      hf2] at hfrom2
    exact hfx)
  refine ⟨s3, ?_, hInv3⟩
  rw [juggle, hm1, Option.some_bind, hm2]

theorem destroy_spec {d : Dungeon} {s : GState} {o : Int}
    (hInv : objInv d s) (ho : o ∈ objIds d)
    (hfrom : placeOf d s o ∈ realLocs d ∨ placeOf d s o = LOC_NOWHERE ∨
      placeOf d s o = CARRIED) :
    ∃ s', destroy d s o = some s' ∧ objInv d s' ∧
      (o ≤ (d.N : Int) → s'.place = upd s.place o LOC_NOWHERE ∧
        s'.fixed = s.fixed) ∧
      s'.holdng = (if o ≤ (d.N : Int) ∧ s.place o = CARRIED ∧ o ≠ d.bird then
        s.holdng - 1 else s.holdng) ∧
      s'.loc = s.loc ∧ s'.newloc = s.newloc ∧ s'.oldloc = s.oldloc ∧
      s'.oldlc2 = s.oldlc2 ∧ s'.closed = s.closed ∧ s'.prop = s.prop ∧
      s'.foobar = s.foobar ∧ s'.dflag = s.dflag ∧ s'.lcgX = s.lcgX ∧
      s'.seenbigwords = s.seenbigwords := by
  obtain ⟨s', hm, hInv', hple, -, hrest⟩ :=
    move_spec hInv ho hfrom (Or.inr (Or.inl rfl))
  exact ⟨s', hm, hInv', hple, hrest⟩

/-- `carryChain` touches only `atloc` and `link`. -/
theorem carryChain_fields {d : Dungeon} {s s' : GState} {o w : Int}
    (h : carryChain d s o w = some s') :
    s'.place = s.place ∧ s'.fixed = s.fixed ∧ s'.holdng = s.holdng ∧
    s'.prop = s.prop ∧ s'.loc = s.loc ∧ s'.closed = s.closed ∧
    s'.foobar = s.foobar ∧ s'.dflag = s.dflag ∧ s'.lcgX = s.lcgX := by
  rw [carryChain] at h
  split_ifs at h with h1
  · obtain rfl : ({ s with atloc := upd s.atloc w (s.link o) } : GState) = s' :=
      by simpa using h
    exact ⟨rfl, rfl, rfl, rfl, rfl, rfl, rfl, rfl, rfl⟩
  · cases hfl : findLoop s.link o (chainFuel d) (s.atloc w) with
    | none => rw [hfl] at h; simp at h
    | some p =>
      rw [hfl] at h
      obtain rfl : ({ s with link := upd s.link p (s.link o) } : GState) = s' :=
        by simpa using h
      exact ⟨rfl, rfl, rfl, rfl, rfl, rfl, rfl, rfl, rfl⟩

/-- `carry` never changes `holdng` when the object is the bird, and
bumps it by one for a not-yet-held ordinary object. -/
theorem carry_holdng {d : Dungeon} {s s' : GState} {o w : Int}
    (h : carry d s o w = some s') :
    s'.holdng = (if o ≤ (d.N : Int) ∧ s.place o ≠ CARRIED ∧ o ≠ d.bird then
      s.holdng + 1 else s.holdng) := by
  rw [carry] at h
  split_ifs at h with h1 h2 h3
  · obtain rfl : s = s' := by simpa using h
    rw [if_neg fun hc => hc.2.1 h2]
  · have hcf := (carryChain_fields h).2.2.1
    rw [hcf, if_pos ⟨h1, h2, h3⟩]
  · have hcf := (carryChain_fields h).2.2.1
    rw [hcf, if_neg fun hc => h3 hc.2.2]
  · have hcf := (carryChain_fields h).2.2.1
    rw [hcf, if_neg fun hc => h1 hc.1]

/-! ## Claim C1 -/

/-- **C1, counterexample to the claim as stated.**  The state `sObj`
satisfies the claimed invariant (every object id in `[1, NOBJECTS]`
chained exactly once or carried), object id `1` and location `2` are
valid, yet `drop(1, 2)` — applied to an object that is currently
chained at location 1 rather than held — leaves the object present in
two chains, violating the claimed invariant. -/
theorem C1_claim_counterexample :
    claimObjInv dObj sObj ∧
    (1 ≤ (1 : Int) ∧ (1 : Int) ≤ (dObj.N : Int)) ∧ (2 : Int) ∈ realLocs dObj ∧
    ¬claimObjInv dObj (drop dObj sObj 1 2) := by decide

/-- **C1 (amended).**  Extend the invariant with the out-of-play case
(`place = LOC_NOWHERE`, in no chain) — `objInv` — and require each
primitive to be applied per its contract: `carry` detaches an object
that is either already carried or actually chained at `where`; `drop`
inserts an object that is in no chain (its tracked location is not a
real location); `move`/`put` and `juggle` require the tracked locations
they consult to be a real location, `LOC_NOWHERE` or `CARRIED`.  Under
those contracts every primitive preserves the invariant (and the
partial ones succeed). -/
theorem C1_primitives_preserve_invariant (d : Dungeon) (s : GState)
    (o w : Int) (hInv : objInv d s) (ho1 : 1 ≤ o) (hoN : o ≤ (d.N : Int))
    (hw : w ∈ realLocs d ∨ w = LOC_NOWHERE ∨ w = CARRIED) :
    (s.place o = CARRIED ∨ (s.place o = w ∧ w ∈ realLocs d) →
      ∃ s', carry d s o w = some s' ∧ objInv d s') ∧
    (placeOf d s o ∉ realLocs d → objInv d (drop d s o w)) ∧
    (placeOf d s o ∈ realLocs d ∨ placeOf d s o = LOC_NOWHERE ∨
        placeOf d s o = CARRIED →
      ∃ s', move d s o w = some s' ∧ objInv d s') ∧
    (∀ pval, placeOf d s o ∈ realLocs d ∨ placeOf d s o = LOC_NOWHERE ∨
        placeOf d s o = CARRIED →
      ∃ s', put d s o w pval = some s' ∧ objInv d s') ∧
    ((s.place o ∈ realLocs d ∨ s.place o = LOC_NOWHERE ∨
        s.place o = CARRIED) →
      (s.fixed o ∈ realLocs d ∨ s.fixed o = LOC_NOWHERE ∨
        s.fixed o = CARRIED) →
      ∃ s', juggle d s o = some s' ∧ objInv d s') := by
  have ho : o ∈ objIds d := mem_objIds.mpr ⟨ho1, by omega⟩
  refine ⟨?_, ?_, ?_, ?_, ?_⟩
  · rintro (hc | ⟨hpl, hwr⟩)
    · exact ⟨s, carry_carried hoN hc, hInv⟩
    · obtain ⟨s', hc, hi, -⟩ := carry_active_spec hInv ho hoN hpl hwr
      exact ⟨s', hc, hi⟩
  · intro hfo
    exact drop_objInv hInv ho hfo hw
  · intro hfrom
    obtain ⟨s', hm, hi, -⟩ := move_spec hInv ho hfrom hw
    exact ⟨s', hm, hi⟩
  · intro pval hfrom
    exact put_spec hInv ho hfrom hw
  · intro hpl hfx
    exact juggle_spec hInv ho1 hoN hpl hfx

/-- Witness for C1: all five primitives evaluated on the concrete
dungeon `dObj` and state `sObj`. -/
theorem C1_primitives_preserve_invariant_witness :
    (∃ s', carry dObj sObj 1 1 = some s' ∧ objInv dObj s') ∧
    objInv dObj (drop dObj sObj 2 2) ∧
    (∃ s', move dObj sObj 1 2 = some s' ∧ objInv dObj s') ∧
    (∃ s', put dObj sObj 1 2 5 = some s' ∧ objInv dObj s') ∧
    (∃ s', juggle dObj sObj 1 = some s' ∧ objInv dObj s') := by
  have h1 := C1_primitives_preserve_invariant dObj sObj 1 1 (by decide)
    (by decide) (by decide) (Or.inl (by decide))
  have h2 := C1_primitives_preserve_invariant dObj sObj 2 2 (by decide)
    (by decide) (by decide) (Or.inl (by decide))
  have h3 := C1_primitives_preserve_invariant dObj sObj 1 2 (by decide)
    (by decide) (by decide) (Or.inl (by decide))
  exact ⟨h1.1 (Or.inr ⟨by decide, by decide⟩), h2.2.1 (by decide),
    h3.2.2.1 (Or.inl (by decide)), h3.2.2.2.1 5 (Or.inl (by decide)),
    h3.2.2.2.2 (Or.inl (by decide)) (Or.inr (Or.inl (by decide)))⟩

/-! ## Claim C5 -/

/-- **C5.**  Carrying the bird while caged leaves `holdng` unchanged
(the code in fact never counts the bird); carrying any other
not-yet-held object in `[1, NOBJECTS]` increments `holdng` by exactly
one; dropping a held object other than the bird decrements it by
exactly one. -/
theorem C5_holdng_update (d : Dungeon) (s : GState) (o w : Int) :
    (∀ s', s.prop d.bird = d.stBirdCaged → carry d s d.bird w = some s' →
      s'.holdng = s.holdng) ∧
    (1 ≤ o → o ≤ (d.N : Int) → o ≠ d.bird → s.place o ≠ CARRIED →
      ∀ s', carry d s o w = some s' → s'.holdng = s.holdng + 1) ∧
    (1 ≤ o → o ≤ (d.N : Int) → o ≠ d.bird → s.place o = CARRIED →
      (drop d s o w).holdng = s.holdng - 1) := by
  refine ⟨?_, ?_, ?_⟩
  · intro s' _ hcar
    rw [carry_holdng hcar, if_neg fun hc => hc.2.2 rfl]
  · intro _ h2 h3 h4 s' hcar
    rw [carry_holdng hcar, if_pos ⟨h2, h4, h3⟩]
  · intro _ h2 h3 h4
    obtain ⟨-, -, hdh, -⟩ := drop_fields d s o w
    rw [hdh, if_pos ⟨not_lt.mpr h2, h4, h3⟩]

/-- Witness for C5: concrete carries and a concrete drop over `dObj`. -/
theorem C5_holdng_update_witness :
    (carry dObj s5 dObj.bird 1 = some s5c1 ∧ s5c1.holdng = s5.holdng) ∧
    (carry dObj s5 1 1 = some s5c2 ∧ s5c2.holdng = s5.holdng + 1) ∧
    (drop dObj s5d 1 1).holdng = s5d.holdng - 1 := by
  refine ⟨⟨rfl, ?_⟩, ⟨rfl, ?_⟩, ?_⟩
  · exact (C5_holdng_update dObj s5 1 1).1 s5c1 (by decide) rfl
  · exact (C5_holdng_update dObj s5 1 1).2.1 (by decide) (by decide)
      (by decide) (by decide) s5c2 rfl
  · exact (C5_holdng_update dObj s5d 1 1).2.2 (by decide) (by decide)
      (by decide) (by decide)

/-! ## Claim C10 -/

theorem atdwrfGo_nomatch (s : GState) (w : Int) (L : List Int) :
    ∀ acc : Int, (∀ i ∈ L, s.dloc i ≠ w) →
      atdwrfGo s w L acc = if ∀ i ∈ L, s.dloc i = 0 then acc else 0 := by
  induction L with
  | nil => intro acc _; simp [atdwrfGo]
  | cons i L ih =>
    intro acc h
    rw [atdwrfGo, if_neg (h i (List.mem_cons_self _ _)),
      ih _ fun j hj => h j (List.mem_cons_of_mem _ hj)]
    by_cases hz : s.dloc i = 0
    · simp [hz]
    · simp [hz]

theorem atdwrfGo_found (s : GState) (w : Int) (L1 : List Int) :
    ∀ (i : Int) (L2 : List Int) (acc : Int), s.dloc i = w →
      (∀ j ∈ L1, s.dloc j ≠ w) → atdwrfGo s w (L1 ++ i :: L2) acc = i := by
  induction L1 with
  | nil =>
    intro i L2 acc hi _
    simp [atdwrfGo, hi]
  | cons j L1 ih =>
    intro i L2 acc hi h
    rw [List.cons_append, atdwrfGo, if_neg (h j (List.mem_cons_self _ _))]
    exact ih _ _ _ hi fun k hk => h k (List.mem_cons_of_mem _ hk)

/-- **C10.**  `atdwrf(where)` returns 0 while `dflag < 2`; otherwise it
returns the smallest index in `[1,5]` of an ordinary dwarf at `where`
if there is one, `-1` if no ordinary dwarf is at `where` and all five
are dead (location 0), and 0 if none is at `where` but at least one is
alive; the pirate (dwarf 6) is never consulted. -/
theorem C10_atdwrf_spec (s : GState) (w : Int) :
    (s.dflag < 2 → atdwrf s w = 0) ∧
    (2 ≤ s.dflag →
      (∀ i ∈ ([1, 2, 3, 4, 5] : List Int), s.dloc i = w →
        (∀ j ∈ ([1, 2, 3, 4, 5] : List Int), j < i → s.dloc j ≠ w) →
        atdwrf s w = i) ∧
      ((∀ i ∈ ([1, 2, 3, 4, 5] : List Int), s.dloc i ≠ w) →
        ((∀ i ∈ ([1, 2, 3, 4, 5] : List Int), s.dloc i = 0) →
          atdwrf s w = -1) ∧
        ((∃ i ∈ ([1, 2, 3, 4, 5] : List Int), s.dloc i ≠ 0) →
          atdwrf s w = 0))) := by
  constructor
  · intro h
    rw [atdwrf, if_pos h]
  · intro h
    have hno : ¬s.dflag < 2 := not_lt.mpr h
    constructor
    · intro i hi hdi hless
      rw [atdwrf, if_neg hno]
      have hmem : i = 1 ∨ i = 2 ∨ i = 3 ∨ i = 4 ∨ i = 5 := by
        simpa using hi
      have hlt : ∀ j ∈ ([1, 2, 3, 4, 5] : List Int), j < i →
          s.dloc j ≠ w := hless
      rcases hmem with rfl | rfl | rfl | rfl | rfl
      · exact atdwrfGo_found s w [] 1 [2, 3, 4, 5] (-1) hdi (by simp)
      · refine atdwrfGo_found s w [1] 2 [3, 4, 5] (-1) hdi ?_
        intro k hk
        simp only [List.mem_singleton] at hk
        subst hk
        exact hlt 1 (by simp) (by norm_num)
      · refine atdwrfGo_found s w [1, 2] 3 [4, 5] (-1) hdi ?_
        intro k hk
        simp only [List.mem_cons, List.mem_singleton, List.not_mem_nil,
          or_false] at hk
        rcases hk with rfl | rfl
        · exact hlt 1 (by simp) (by norm_num)
        · exact hlt 2 (by simp) (by norm_num)
      · refine atdwrfGo_found s w [1, 2, 3] 4 [5] (-1) hdi ?_
        intro k hk
        simp only [List.mem_cons, List.mem_singleton, List.not_mem_nil,
          or_false] at hk
        rcases hk with rfl | rfl | rfl
        · exact hlt 1 (by simp) (by norm_num)
        · exact hlt 2 (by simp) (by norm_num)
        · exact hlt 3 (by simp) (by norm_num)
      · refine atdwrfGo_found s w [1, 2, 3, 4] 5 [] (-1) hdi ?_
        intro k hk
        simp only [List.mem_cons, List.mem_singleton, List.not_mem_nil,
          or_false] at hk
        rcases hk with rfl | rfl | rfl | rfl
        · exact hlt 1 (by simp) (by norm_num)
        · exact hlt 2 (by simp) (by norm_num)
        · exact hlt 3 (by simp) (by norm_num)
        · exact hlt 4 (by simp) (by norm_num)
    · intro hnone
      constructor
      · intro hdead
        rw [atdwrf, if_neg hno, atdwrfGo_nomatch s w _ _ hnone,
          if_pos hdead]
      · rintro ⟨i, hi, hlive⟩
        rw [atdwrf, if_neg hno, atdwrfGo_nomatch s w _ _ hnone,
          if_neg fun hall => hlive (hall i hi)]

/-- Witness for C10: the four behaviours at concrete states. -/
theorem C10_atdwrf_spec_witness :
    atdwrf sdw 7 = 3 ∧ atdwrf sdw 9 = 0 ∧ atdwrf sdwDead 9 = -1 ∧
    atdwrf sdwOff 7 = 0 := by
  refine ⟨?_, ?_, ?_, ?_⟩
  · exact ((C10_atdwrf_spec sdw 7).2 (by decide)).1 3 (by decide) (by decide)
      (by decide)
  · exact (((C10_atdwrf_spec sdw 9).2 (by decide)).2 (by decide)).2
      ⟨3, by decide, by decide⟩
  · exact (((C10_atdwrf_spec sdwDead 9).2 (by decide)).2 (by decide)).1
      (by decide)
  · exact (C10_atdwrf_spec sdwOff 7).1 (by decide)

/-! ## Claim C2 -/

theorem tdiv_nonneg_eq_ediv {a b : Int} (ha : 0 ≤ a) (hb : 0 ≤ b) :
    a.tdiv b = a / b := by
  unfold Int.tdiv
  match a, ha, b, hb with
  | Int.ofNat m, _, Int.ofNat n, _ => rfl

theorem tmod_nonneg_eq_emod {a b : Int} (ha : 0 ≤ a) (hb : 0 ≤ b) :
    a.tmod b = a % b := by
  unfold Int.tmod
  match a, ha, b, hb with
  | Int.ofNat m, _, Int.ofNat n, _ => rfl

/-- **C2.**  With the register `x` in `[0, 1048576)` and a positive
range `n`, `randrange(n)` returns `⌊n * x / 1048576⌋` computed from the
pre-advance register, and leaves the register equal to
`(1093 * x + 221587) mod 1048576`. -/
theorem C2_randrange_spec (s : GState) (n : Int) (hx0 : 0 ≤ s.lcgX)
    (hx1 : s.lcgX < 1048576) (hn : 0 < n) :
    (randrange s n).1 = n * s.lcgX / 1048576 ∧
    ((randrange s n).2).lcgX = (1093 * s.lcgX + 221587) % 1048576 := by
  constructor
  · show (n * s.lcgX).tdiv LCG_M = n * s.lcgX / 1048576
    rw [tdiv_nonneg_eq_ediv (by positivity) (by rw [LCG_M]; norm_num), LCG_M]
  · show (LCG_A * s.lcgX + LCG_C).tmod LCG_M = _
    rw [tmod_nonneg_eq_emod (by rw [LCG_A, LCG_C]; positivity)
      (by rw [LCG_M]; norm_num), LCG_A, LCG_C, LCG_M]

/-- Witness for C2: a concrete draw. -/
theorem C2_randrange_spec_witness :
    (randrange sRng 26).1 = 26 * sRng.lcgX / 1048576 ∧
    ((randrange sRng 26).2).lcgX = (1093 * sRng.lcgX + 221587) % 1048576 :=
  C2_randrange_spec sRng 26 (by decide) (by decide) (by decide)

/-! ## Claim C3 -/

/-- **C3.**  `restore` leaves the current state untouched and only
reports when the magic/canary mismatch or the version differs (decoded
as `version/10` and `version%10`); a save passing the header checks but
failing the validator is reported as tampering and terminates the
session; only a fully valid save replaces the game state. -/
theorem C3_restore_spec (d : Dungeon) (sv : SaveFile) (g : GState) :
    (sv.magic ≠ adventMagic ∨ sv.canary ≠ ENDIAN_MAGIC →
      restore d sv g = ⟨g, [Ev.rsp d.msgBadSave []], false, GO_TOP⟩) ∧
    (sv.magic = adventMagic → sv.canary = ENDIAN_MAGIC →
      sv.version ≠ SAVE_VERSION →
      restore d sv g = ⟨g, [Ev.rsp d.msgVersionSkew
        [sv.version.tdiv 10, sv.version.tmod 10, 3, 1]], false, GO_TOP⟩) ∧
    (sv.magic = adventMagic → sv.canary = ENDIAN_MAGIC →
      sv.version = SAVE_VERSION → isValid d sv.game = false →
      restore d sv g =
        ⟨g, [Ev.rsp d.msgSaveTampering []], true, GO_TOP⟩) ∧
    (sv.magic = adventMagic → sv.canary = ENDIAN_MAGIC →
      sv.version = SAVE_VERSION → isValid d sv.game = true →
      restore d sv g = ⟨sv.game, [], false, GO_TOP⟩) := by
  refine ⟨?_, ?_, ?_, ?_⟩
  · intro h
    rw [restore, if_pos h]
  · intro h1 h2 h3
    rw [restore, if_neg (by simp [h1, h2]), if_pos h3]
    rfl
  · intro h1 h2 h3 h4
    rw [restore, if_neg (by simp [h1, h2]), if_neg (by simp [h3]),
      if_pos h4]
  · intro h1 h2 h3 h4
    rw [restore, if_neg (by simp [h1, h2]), if_neg (by simp [h3]),
      if_neg (by simp [h4])]

/-- Witness for C3: all four restore outcomes on concrete saves. -/
theorem C3_restore_spec_witness :
    restore dObj svBad sObj =
      ⟨sObj, [Ev.rsp dObj.msgBadSave []], false, GO_TOP⟩ ∧
    restore dObj svVer sObj =
      ⟨sObj, [Ev.rsp dObj.msgVersionSkew [3, 0, 3, 1]], false, GO_TOP⟩ ∧
    restore dObj svTamper sObj =
      ⟨sObj, [Ev.rsp dObj.msgSaveTampering []], true, GO_TOP⟩ ∧
    restore dObj svGood sObj = ⟨sObj, [], false, GO_TOP⟩ := by
  refine ⟨?_, ?_, ?_, ?_⟩
  · exact (C3_restore_spec dObj svBad sObj).1 (Or.inl (by decide))
  · exact (C3_restore_spec dObj svVer sObj).2.1 rfl (by decide) (by decide)
  · exact (C3_restore_spec dObj svTamper sObj).2.2.1 rfl (by decide)
      (by decide) (by decide)
  · exact (C3_restore_spec dObj svGood sObj).2.2.2 rfl (by decide)
      (by decide) (by decide)

/-! ## Claim C6 -/

/-- **C6.**  Feeding the snake with the bird present and the game not
closed destroys the bird and reports the "devoured" message; the same
action when closed leaves the bird alone and reports the generic
"nothing edible" failure. -/
theorem C6_feed_snake (d : Dungeon) (s : GState) (verb : Int)
    (hInv : objInv d s) (hb1 : 1 ≤ d.bird) (hbN : d.bird ≤ (d.N : Int))
    (hsb : d.snake ≠ d.bird) (hsd : d.snake ≠ d.dragon)
    (hbird : s.place d.bird = s.loc ∨ s.place d.bird = CARRIED)
    (hloc : s.loc ∈ realLocs d) :
    (s.closed = false →
      ∃ s', feed d s verb d.snake =
          some (s', [Ev.rsp d.msgBirdDevoured []], GO_CLEAROBJ) ∧
        s'.place d.bird = LOC_NOWHERE ∧ objInv d s') ∧
    (s.closed = true →
      feed d s verb d.snake =
        some (s, [Ev.rsp d.msgNothingEdible []], GO_CLEAROBJ)) := by
  have hHere : HERE s d.bird = true := by
    rcases hbird with h | h
    · simp [HERE, AT, h]
    · simp [HERE, TOTING, h, CARRIED]
  have ho : d.bird ∈ objIds d := mem_objIds.mpr ⟨hb1, by omega⟩
  have hfrom : placeOf d s d.bird ∈ realLocs d ∨
      placeOf d s d.bird = LOC_NOWHERE ∨ placeOf d s d.bird = CARRIED := by
    rw [placeOf, if_pos hbN]
    rcases hbird with h | h
    · exact Or.inl (h ▸ hloc)
    · exact Or.inr (Or.inr h)
  constructor
  · intro hcl
    obtain ⟨s', hd, hInv', hple, -⟩ := destroy_spec hInv ho hfrom
    refine ⟨s', ?_, ?_, hInv'⟩
    · rw [feed, if_neg hsb, if_neg hsd, if_pos rfl,
        if_pos (by rw [hcl, hHere]; rfl), hd, Option.map_some']
    · obtain ⟨hp, -⟩ := hple hbN
      rw [hp, upd_same]
  · intro hcl
    rw [feed, if_neg hsb, if_neg hsd, if_pos rfl,
      if_neg (by rw [hcl]; simp)]

/-- Witness for C6: both outcomes on concrete states (in `sObj` the
bird, object 1, is at the player's location 1). -/
theorem C6_feed_snake_witness :
    (∃ s', feed dFeed sObj 10 dFeed.snake =
        some (s', [Ev.rsp dFeed.msgBirdDevoured []], GO_CLEAROBJ) ∧
      s'.place dFeed.bird = LOC_NOWHERE ∧ objInv dFeed s') ∧
    feed dFeed sObjClosed 10 dFeed.snake =
      some (sObjClosed, [Ev.rsp dFeed.msgNothingEdible []], GO_CLEAROBJ) := by
  constructor
  · exact (C6_feed_snake dFeed sObj 10 (by decide) (by decide) (by decide)
      (by decide) (by decide) (Or.inl (by decide)) (by decide)).1 rfl
  · exact (C6_feed_snake dFeed sObjClosed 10 (by decide) (by decide)
      (by decide) (by decide) (by decide) (Or.inl (by decide))
      (by decide)).2 rfl

/-! ## Claim C7 -/

theorem bigwords_ok_step (d : Dungeon) (st : Settings) (s : GState)
    (id : Int)
    (h1 : ¬(|s.foobar| = 0 ∧
      (id = d.aFie ∨ id = d.aFoe ∨ id = d.aFoo ∨ id = d.aFum)))
    (h2 : (|s.foobar| = 0 ∧ id = d.aFee) ∨
      (|s.foobar| = d.aFee ∧ id = d.aFie) ∨
      (|s.foobar| = d.aFie ∧ id = d.aFoe) ∨
      (|s.foobar| = d.aFoe ∧ id = d.aFoo))
    (h3 : id ≠ d.aFoo) :
    bigwords d st s id =
      some ({ s with foobar := id }, [Ev.rsp d.msgOkMan []], GO_CLEAROBJ) := by
  simp only [bigwords]
  rw [if_neg h1, if_pos h2, if_pos h3]

theorem bigwords_deviation_empty (d : Dungeon) (st : Settings)
    (s : GState) (id : Int) (h0 : |s.foobar| = 0)
    (hid : id = d.aFie ∨ id = d.aFoe ∨ id = d.aFoo ∨ id = d.aFum) :
    bigwords d st s id =
      some (s, [Ev.rsp d.msgNothingHappens []], GO_CLEAROBJ) := by
  simp only [bigwords]
  rw [if_pos ⟨h0, hid⟩]

theorem bigwords_deviation_mid (d : Dungeon) (st : Settings) (s : GState)
    (id : Int) (h0 : |s.foobar| ≠ 0)
    (hn1 : ¬(|s.foobar| = d.aFee ∧ id = d.aFie))
    (hn2 : ¬(|s.foobar| = d.aFie ∧ id = d.aFoe))
    (hn3 : ¬(|s.foobar| = d.aFoe ∧ id = d.aFoo)) :
    bigwords d st s id = some ({ s with foobar := 0 },
      [if st.oldstyle ∨ s.seenbigwords then Ev.rsp d.msgStartOver []
        else Ev.rsp d.msgWellPointless []], GO_CLEAROBJ) := by
  simp only [bigwords]
  rw [if_neg fun hc => h0 hc.1, if_neg ?_]
  rintro (⟨hc, -⟩ | hc | hc | hc)
  · exact h0 hc
  · exact hn1 hc
  · exact hn2 hc
  · exact hn3 hc

theorem bigwords_to_foo (d : Dungeon) (st : Settings) (s : GState)
    (id : Int)
    (h1 : ¬(|s.foobar| = 0 ∧
      (id = d.aFie ∨ id = d.aFoe ∨ id = d.aFoo ∨ id = d.aFum)))
    (h2 : (|s.foobar| = 0 ∧ id = d.aFee) ∨
      (|s.foobar| = d.aFee ∧ id = d.aFie) ∨
      (|s.foobar| = d.aFie ∧ id = d.aFoe) ∨
      (|s.foobar| = d.aFoe ∧ id = d.aFoo))
    (h3 : id = d.aFoo) :
    bigwords d st s id = bigwordsFoo d { s with foobar := 0 } := by
  simp only [bigwords]
  rw [if_neg h1, if_pos h2, if_neg (not_not.mpr h3)]

theorem bigwordsFoo_effect (d : Dungeon) (s2 : GState)
    (hInv : objInv d s2) (he1 : 1 ≤ d.eggs) (heN : d.eggs ≤ (d.N : Int))
    (hloc : s2.loc = d.objPlac d.eggs) (hlocr : s2.loc ∈ realLocs d)
    (hne : s2.place d.eggs ≠ d.objPlac d.eggs)
    (hnt : s2.place d.eggs ≠ CARRIED) (hfx : s2.fixed d.eggs ≠ s2.loc)
    (hpl : s2.place d.eggs ∈ realLocs d ∨ s2.place d.eggs = LOC_NOWHERE) :
    ∃ s4, bigwordsFoo d s2 =
        some (s4, [Ev.psp d.eggs 1 true d.stEggsHere], GO_CLEAROBJ) ∧
      s4.foobar = s2.foobar ∧ s4.place d.eggs = d.objPlac d.eggs ∧
      objInv d s4 := by
  simp only [bigwordsFoo]
  have hinner : ¬(s2.place d.eggs = d.objPlac d.eggs ∨
      (TOTING s2 d.eggs ∧ s2.loc = d.objPlac d.eggs)) := by
    rintro (hc | ⟨hc, -⟩)
    · exact hne hc
    · rw [TOTING] at hc
      exact hnt (by simpa using hc)
  rw [if_neg hinner]
  have heo : d.eggs ∈ objIds d := mem_objIds.mpr ⟨he1, by omega⟩
  have hwr : d.objPlac d.eggs ∈ realLocs d := hloc ▸ hlocr
  by_cases htr : s2.place d.eggs = LOC_NOWHERE ∧
      s2.place d.troll = LOC_NOWHERE ∧ s2.prop d.troll = d.stTrollUnpaid
  · rw [if_pos htr]
    set s3 : GState :=
      { s2 with prop := upd s2.prop d.troll d.stTrollPaidonce } with hs3
    have hev : (if HERE s3 d.eggs then Ev.psp d.eggs 1 true d.stEggsVanished
        else if s3.loc = d.objPlac d.eggs then
          Ev.psp d.eggs 1 true d.stEggsHere
        else Ev.psp d.eggs 1 true d.stEggsDone) =
        Ev.psp d.eggs 1 true d.stEggsHere := by
      rw [if_neg, if_pos hloc]
      simp only [HERE, AT, TOTING, Bool.or_eq_true, beq_iff_eq]
      push_neg
      refine ⟨⟨fun hc => hne (hc.trans hloc), hfx⟩, hnt⟩
    rw [hev]
    have hInv3 : objInv d s3 := objInv_set_prop hInv _
    have hfrom : placeOf d s3 d.eggs ∈ realLocs d ∨
        placeOf d s3 d.eggs = LOC_NOWHERE ∨
        placeOf d s3 d.eggs = CARRIED := by
      rw [placeOf, if_pos heN]
      rcases hpl with hc | hc
      · exact Or.inl hc
      · exact Or.inr (Or.inl hc)
    obtain ⟨s4, hm, hInv4, hple, -, -, -, -, -, -, -, -, hfoo, -⟩ :=
      move_spec hInv3 heo hfrom (Or.inl hwr)
    refine ⟨s4, ?_, hfoo, ?_, hInv4⟩
    · rw [hm, Option.map_some']
    · obtain ⟨hp, -⟩ := hple heN
      rw [hp, upd_same]
  · rw [if_neg htr]
    have hev : (if HERE s2 d.eggs then Ev.psp d.eggs 1 true d.stEggsVanished
        else if s2.loc = d.objPlac d.eggs then
          Ev.psp d.eggs 1 true d.stEggsHere
        else Ev.psp d.eggs 1 true d.stEggsDone) =
        Ev.psp d.eggs 1 true d.stEggsHere := by
      rw [if_neg, if_pos hloc]
      simp only [HERE, AT, TOTING, Bool.or_eq_true, beq_iff_eq]
      push_neg
      refine ⟨⟨fun hc => hne (hc.trans hloc), hfx⟩, hnt⟩
    rw [hev]
    have hfrom : placeOf d s2 d.eggs ∈ realLocs d ∨
        placeOf d s2 d.eggs = LOC_NOWHERE ∨
        placeOf d s2 d.eggs = CARRIED := by
      rw [placeOf, if_pos heN]
      rcases hpl with hc | hc
      · exact Or.inl hc
      · exact Or.inr (Or.inl hc)
    obtain ⟨s4, hm, hInv4, hple, -, -, -, -, -, -, -, -, hfoo, -⟩ :=
      move_spec hInv heo hfrom (Or.inl hwr)
    refine ⟨s4, ?_, hfoo, ?_, hInv4⟩
    · rw [hm, Option.map_some']
    · obtain ⟨hp, -⟩ := hple heN
      rw [hp, upd_same]

/-- **C7 (amended).**  Speaking fee, fie, foe, foo in sequence in the
golden-eggs room (with the eggs elsewhere and not carried) answers "ok"
to the first three words, then triggers the eggs effect exactly once —
only the fourth call moves the eggs — and clears `foobar`.  A word
that breaks the sequence resets `foobar` and reports "nothing happens"
when the counter was empty, or the start-over / "well, that was
pointless" message (by `oldstyle`/`seenbigwords`) when it was not —
never "ok". -/
theorem C7_bigwords_spec (d : Dungeon) (st : Settings) (s : GState)
    (id : Int) (hInv : objInv d s) (he1 : 1 ≤ d.eggs)
    (heN : d.eggs ≤ (d.N : Int)) (hfe : 0 < d.aFee) (hfi : 0 < d.aFie)
    (hfo : 0 < d.aFoe) (hfoo : 0 < d.aFoo) (hd1 : d.aFee ≠ d.aFie)
    (hd2 : d.aFee ≠ d.aFoe) (hd3 : d.aFee ≠ d.aFoo) (hd4 : d.aFee ≠ d.aFum)
    (hd6 : d.aFie ≠ d.aFoo) (hd7 : d.aFoe ≠ d.aFoo) :
    (s.foobar = 0 → s.loc = d.objPlac d.eggs → s.loc ∈ realLocs d →
      s.place d.eggs ≠ d.objPlac d.eggs → s.place d.eggs ≠ CARRIED →
      s.fixed d.eggs ≠ s.loc →
      (s.place d.eggs ∈ realLocs d ∨ s.place d.eggs = LOC_NOWHERE) →
      ∃ s4,
        bigwords d st s d.aFee = some ({ s with foobar := d.aFee },
          [Ev.rsp d.msgOkMan []], GO_CLEAROBJ) ∧
        bigwords d st { s with foobar := d.aFee } d.aFie =
          some ({ s with foobar := d.aFie }, [Ev.rsp d.msgOkMan []],
            GO_CLEAROBJ) ∧
        bigwords d st { s with foobar := d.aFie } d.aFoe =
          some ({ s with foobar := d.aFoe }, [Ev.rsp d.msgOkMan []],
            GO_CLEAROBJ) ∧
        bigwords d st { s with foobar := d.aFoe } d.aFoo =
          some (s4, [Ev.psp d.eggs 1 true d.stEggsHere], GO_CLEAROBJ) ∧
        s4.foobar = 0 ∧ s4.place d.eggs = d.objPlac d.eggs ∧
        objInv d s4) ∧
    (s.foobar = 0 →
      (id = d.aFie ∨ id = d.aFoe ∨ id = d.aFoo ∨ id = d.aFum) →
      bigwords d st s id =
        some (s, [Ev.rsp d.msgNothingHappens []], GO_CLEAROBJ)) ∧
    (s.foobar ≠ 0 →
      ¬(|s.foobar| = d.aFee ∧ id = d.aFie) →
      ¬(|s.foobar| = d.aFie ∧ id = d.aFoe) →
      ¬(|s.foobar| = d.aFoe ∧ id = d.aFoo) →
      bigwords d st s id = some ({ s with foobar := 0 },
        [if st.oldstyle ∨ s.seenbigwords then Ev.rsp d.msgStartOver []
          else Ev.rsp d.msgWellPointless []], GO_CLEAROBJ)) := by
  refine ⟨?_, ?_, ?_⟩
  · intro hz0 hloc hlocr hne hnt hfx hpl
    have habs0 : |s.foobar| = 0 := by rw [hz0]; exact abs_zero
    have call1 := bigwords_ok_step d st s d.aFee
      (by
        rintro ⟨-, hc | hc | hc | hc⟩
        exacts [hd1 hc, hd2 hc, hd3 hc, hd4 hc])
      (Or.inl ⟨habs0, rfl⟩) hd3
    have call2 := bigwords_ok_step d st { s with foobar := d.aFee } d.aFie
      (by
        rintro ⟨hzz, -⟩
        rw [show ({ s with foobar := d.aFee } : GState).foobar = d.aFee
          from rfl, abs_of_pos hfe] at hzz
        omega)
      (Or.inr (Or.inl ⟨abs_of_pos hfe, rfl⟩)) hd6
    have call3 := bigwords_ok_step d st { s with foobar := d.aFie } d.aFoe
      (by
        rintro ⟨hzz, -⟩
        rw [show ({ s with foobar := d.aFie } : GState).foobar = d.aFie
          from rfl, abs_of_pos hfi] at hzz
        omega)
      (Or.inr (Or.inr (Or.inl ⟨abs_of_pos hfi, rfl⟩))) hd7
    have call4 := bigwords_to_foo d st { s with foobar := d.aFoe } d.aFoo
      (by
        rintro ⟨hzz, -⟩
        rw [show ({ s with foobar := d.aFoe } : GState).foobar = d.aFoe
          from rfl, abs_of_pos hfo] at hzz
        omega)
      (Or.inr (Or.inr (Or.inr ⟨abs_of_pos hfo, rfl⟩))) rfl
    obtain ⟨s4, heff, hfoo4, hpl4, hInv4⟩ :=
      bigwordsFoo_effect d { s with foobar := (0 : Int) } hInv he1 heN
        hloc hlocr hne hnt hfx hpl
    exact ⟨s4, call1, call2, call3, call4.trans heff, hfoo4, hpl4, hInv4⟩
  · intro hz0 hid
    exact bigwords_deviation_empty d st s id (by rw [hz0]; exact abs_zero)
      hid
  · intro hz0 hn1 hn2 hn3
    exact bigwords_deviation_mid d st s id (abs_ne_zero.mpr hz0) hn1 hn2 hn3

/-- **C7, counterexample to the claim as stated.**  With the tracking
counter holding "fee" (31), speaking "fee" again is a deviation: the
code resets the counter but reports the "well, that was pointless"
message (116), which is neither "nothing happens" (104) nor "ok"
(114), contradicting the claim that deviations report "nothing
happens" or "ok". -/
theorem C7_claim_counterexample :
    bigwords dBig st0 sEggsFee 31 =
      some ({ sEggsFee with foobar := 0 },
        [Ev.rsp dBig.msgWellPointless []], GO_CLEAROBJ) ∧
    dBig.msgWellPointless ≠ dBig.msgNothingHappens ∧
    dBig.msgWellPointless ≠ dBig.msgOkMan :=
  ⟨rfl, by decide, by decide⟩

/-- Witness for C7: the full fee-fie-foe-foo sequence on `sEggs`, an
empty-counter deviation, and a mid-sequence deviation. -/
theorem C7_bigwords_spec_witness :
    (∃ s4,
      bigwords dBig st0 sEggs dBig.aFee = some ({ sEggs with foobar := dBig.aFee },
        [Ev.rsp dBig.msgOkMan []], GO_CLEAROBJ) ∧
      bigwords dBig st0 { sEggs with foobar := dBig.aFee } dBig.aFie =
        some ({ sEggs with foobar := dBig.aFie }, [Ev.rsp dBig.msgOkMan []],
          GO_CLEAROBJ) ∧
      bigwords dBig st0 { sEggs with foobar := dBig.aFie } dBig.aFoe =
        some ({ sEggs with foobar := dBig.aFoe }, [Ev.rsp dBig.msgOkMan []],
          GO_CLEAROBJ) ∧
      bigwords dBig st0 { sEggs with foobar := dBig.aFoe } dBig.aFoo =
        some (s4, [Ev.psp dBig.eggs 1 true dBig.stEggsHere], GO_CLEAROBJ) ∧
      s4.foobar = 0 ∧ s4.place dBig.eggs = dBig.objPlac dBig.eggs ∧
      objInv dBig s4) ∧
    bigwords dBig st0 sEggs 33 =
      some (sEggs, [Ev.rsp dBig.msgNothingHappens []], GO_CLEAROBJ) ∧
    bigwords dBig st0 sEggsFee 35 =
      some ({ sEggsFee with foobar := 0 },
        [Ev.rsp dBig.msgWellPointless []], GO_CLEAROBJ) := by
  have h1 := C7_bigwords_spec dBig st0 sEggs 33 (by decide) (by decide)
    (by decide) (by decide) (by decide) (by decide) (by decide) (by decide)
    (by decide) (by decide) (by decide) (by decide) (by decide)
  have h2 := C7_bigwords_spec dBig st0 sEggsFee 35 (by decide) (by decide)
    (by decide) (by decide) (by decide) (by decide) (by decide) (by decide)
    (by decide) (by decide) (by decide) (by decide) (by decide)
  refine ⟨?_, ?_, ?_⟩
  · exact h1.1 (by decide) (by decide) (by decide) (by decide) (by decide)
      (by decide) (Or.inl (by decide))
  · exact h1.2.1 (by decide) (Or.inr (Or.inl (by decide)))
  · exact h2.2.2 (by decide) (by decide) (by decide) (by decide)

/-! ## Claim C4 -/

theorem scanLoop_absent (d : Dungeon) (m : Int) :
    ∀ (n : Nat) (te : Int),
      (∀ i : Nat, i ≤ n → (d.travel (te + (i : Int))).motion ≠ d.mHere ∧
        (d.travel (te + (i : Int))).motion ≠ m) →
      (d.travel (te + (n : Int))).stop = true →
      (∀ i : Nat, i < n → (d.travel (te + (i : Int))).stop = false) →
      scanLoop d m (n + 1) te = .absent := by
  intro n
  induction n with
  | zero =>
    intro te h1 h2 h3
    have h0 := h1 0 le_rfl
    rw [show te + ((0 : Nat) : Int) = te by push_cast; ring] at h0 h2
    rw [scanLoop, if_neg (by rintro (hc | hc); exacts [h0.1 hc, h0.2 hc]),
      if_pos h2]
  | succ n ih =>
    intro te h1 h2 h3
    have h0 := h1 0 (by omega)
    have hs0 := h3 0 (by omega)
    rw [show te + ((0 : Nat) : Int) = te by push_cast; ring] at h0 hs0
    have hshift : ∀ i : Nat, te + 1 + (i : Int) = te + ((i + 1 : Nat) : Int) :=
      by intro i; push_cast; ring
    rw [scanLoop, if_neg (by rintro (hc | hc); exacts [h0.1 hc, h0.2 hc]),
      if_neg (by rw [hs0]; exact Bool.false_ne_true)]
    exact ih (te + 1)
      (fun i hi => by rw [hshift i]; exact h1 (i + 1) (by omega))
      (by rw [hshift n]; exact h2)
      (fun i hi => by rw [hshift i]; exact h3 (i + 1) (by omega))

/-- **C4.**  At a location with at least one travel entry, an ordinary
motion (not NUL/BACK/LOOK/CAVE) matching no travel rule leaves
`newloc = loc` and emits exactly the direction-class "can't go"
message: compass/up/down → BAD_DIRECTION, forward/left/right →
UNSURE_FACING, inside/outside → NO_INOUT_HERE, xyzzy/plugh →
NOTHING_HAPPENS, crawl → WHICH_WAY, anything else → CANT_APPLY. -/
theorem C4_no_rule_message (d : Dungeon) (s : GState) (m : Int) (n : Nat)
    (ht : d.tkey s.loc ≠ 0) (hm1 : m ≠ d.mNul) (hm2 : m ≠ d.mBack)
    (hm3 : m ≠ d.mLook) (hm4 : m ≠ d.mCave)
    (hmot : ∀ i : Nat, i ≤ n →
      (d.travel (d.tkey s.loc + (i : Int))).motion ≠ d.mHere ∧
      (d.travel (d.tkey s.loc + (i : Int))).motion ≠ m)
    (hstop : (d.travel (d.tkey s.loc + (n : Int))).stop = true)
    (hnostop : ∀ i : Nat, i < n →
      (d.travel (d.tkey s.loc + (i : Int))).stop = false) :
    playermove d (n + 1) s m =
      .ok { s with newloc := s.loc, oldlc2 := s.oldloc, oldloc := s.loc }
        [Ev.rsp (cantGoMsg d m) []] ∧
    ({ s with
        newloc := s.loc
        oldlc2 := s.oldloc
        oldloc := s.loc } : GState).newloc =
      ({ s with
        newloc := s.loc
        oldlc2 := s.oldloc
        oldloc := s.loc } : GState).loc ∧
    ((m = d.mEast ∨ m = d.mWest ∨ m = d.mSouth ∨ m = d.mNorth ∨
        m = d.mNE ∨ m = d.mNW ∨ m = d.mSW ∨ m = d.mSE ∨ m = d.mUp ∨
        m = d.mDown) →
      cantGoMsg d m = d.msgBadDirection) ∧
    (¬(m = d.mEast ∨ m = d.mWest ∨ m = d.mSouth ∨ m = d.mNorth ∨
        m = d.mNE ∨ m = d.mNW ∨ m = d.mSW ∨ m = d.mSE ∨ m = d.mUp ∨
        m = d.mDown) →
      (m = d.mForward ∨ m = d.mLeft ∨ m = d.mRight) →
      cantGoMsg d m = d.msgUnsureFacing) ∧
    (¬(m = d.mEast ∨ m = d.mWest ∨ m = d.mSouth ∨ m = d.mNorth ∨
        m = d.mNE ∨ m = d.mNW ∨ m = d.mSW ∨ m = d.mSE ∨ m = d.mUp ∨
        m = d.mDown) →
      ¬(m = d.mForward ∨ m = d.mLeft ∨ m = d.mRight) →
      (m = d.mOutside ∨ m = d.mInside) →
      cantGoMsg d m = d.msgNoInoutHere) ∧
    (¬(m = d.mEast ∨ m = d.mWest ∨ m = d.mSouth ∨ m = d.mNorth ∨
        m = d.mNE ∨ m = d.mNW ∨ m = d.mSW ∨ m = d.mSE ∨ m = d.mUp ∨
        m = d.mDown) →
      ¬(m = d.mForward ∨ m = d.mLeft ∨ m = d.mRight) →
      ¬(m = d.mOutside ∨ m = d.mInside) →
      (m = d.mXyzzy ∨ m = d.mPlugh) →
      cantGoMsg d m = d.msgNothingHappens) ∧
    (¬(m = d.mEast ∨ m = d.mWest ∨ m = d.mSouth ∨ m = d.mNorth ∨
        m = d.mNE ∨ m = d.mNW ∨ m = d.mSW ∨ m = d.mSE ∨ m = d.mUp ∨
        m = d.mDown) →
      ¬(m = d.mForward ∨ m = d.mLeft ∨ m = d.mRight) →
      ¬(m = d.mOutside ∨ m = d.mInside) →
      ¬(m = d.mXyzzy ∨ m = d.mPlugh) →
      m = d.mCrawl →
      cantGoMsg d m = d.msgWhichWay) ∧
    (¬(m = d.mEast ∨ m = d.mWest ∨ m = d.mSouth ∨ m = d.mNorth ∨
        m = d.mNE ∨ m = d.mNW ∨ m = d.mSW ∨ m = d.mSE ∨ m = d.mUp ∨
        m = d.mDown) →
      ¬(m = d.mForward ∨ m = d.mLeft ∨ m = d.mRight) →
      ¬(m = d.mOutside ∨ m = d.mInside) →
      ¬(m = d.mXyzzy ∨ m = d.mPlugh) →
      m ≠ d.mCrawl →
      cantGoMsg d m = d.msgCantApply) := by
  refine ⟨?_, rfl, ?_, ?_, ?_, ?_, ?_, ?_⟩
  · simp only [playermove]
    rw [if_neg ht, if_neg hm1, if_neg hm2, if_neg hm3, if_neg hm4,
      mainScan, scanLoop_absent d m n (d.tkey s.loc) hmot hstop hnostop]
  · intro h
    rw [cantGoMsg, if_pos h]
  · intro h1 h2
    rw [cantGoMsg, if_neg h1, if_pos h2]
  · intro h1 h2 h3
    rw [cantGoMsg, if_neg h1, if_neg h2, if_pos h3]
  · intro h1 h2 h3 h4
    rw [cantGoMsg, if_neg h1, if_neg h2, if_neg h3, if_pos h4]
  · intro h1 h2 h3 h4 h5
    rw [cantGoMsg, if_neg h1, if_neg h2, if_neg h3, if_neg h4, if_pos h5]
  · intro h1 h2 h3 h4 h5
    rw [cantGoMsg, if_neg h1, if_neg h2, if_neg h3, if_neg h4, if_neg h5]

/-- Witness for C4: going east at a location with no east rule. -/
theorem C4_no_rule_message_witness :
    playermove dMove 1 sObj dMove.mEast =
      .ok { sObj with
          newloc := sObj.loc
          oldlc2 := sObj.oldloc
          oldloc := sObj.loc }
        [Ev.rsp dMove.msgBadDirection []] := by
  have h := C4_no_rule_message dMove sObj dMove.mEast 0 (by decide)
    (by decide) (by decide) (by decide) (by decide)
    (fun i hi => by
      obtain rfl : i = 0 := by omega
      exact ⟨by decide, by decide⟩)
    (by decide)
    (fun i hi => absurd hi (Nat.not_lt_zero i))
  have hmsg := h.2.2.1 (Or.inl rfl)
  rw [← hmsg]
  exact h.1

/-! ## Claim C8 -/

theorem scanLoop_found_head (d : Dungeon) (m : Int) (fuel : Nat) (te : Int)
    (h : (d.travel te).motion = m) :
    scanLoop d m (fuel + 1) te = .found te := by
  rw [scanLoop, if_pos (Or.inr h)]

theorem l12_cond_true (d : Dungeon) (fuel : Nat) (s s1 : GState)
    (te : Int) (evs : List Ev)
    (hec : evalCond d s (d.travel te) = (true, s1)) :
    l12 d (fuel + 1) s te evs =
      execRule d (fuel + 1) (fun s' te' => l12 d fuel s' te' evs) s1 te
        evs := by
  simp only [l12, hec]
  exact if_pos trivial

theorem execRule_special1 (d : Dungeon) (skipFuel : Nat)
    (cont : GState → Int → PmRes) (s : GState) (te : Int) (evs : List Ev)
    (hdt : (d.travel te).desttype = 1) (hdv : (d.travel te).destval = 1) :
    execRule d skipFuel cont s te evs =
      (if s.holdng > 1 ∨ (s.holdng = 1 ∧ ¬TOTING s d.emerald) then
        PmRes.ok { s with newloc := s.loc }
          (evs ++ [Ev.rsp d.msgMustDrop []])
      else
        PmRes.ok { s with newloc :=
          if s.loc = d.locPlover then d.locAlcove else d.locPlover }
          evs) := by
  simp only [execRule]
  rw [if_neg (by rw [hdt]; norm_num), if_neg (by rw [hdt]; norm_num),
    if_pos (show ({ s with newloc := (d.travel te).destval } :
      GState).newloc = 1 from hdv)]
  rfl

/-- **C8.**  Special travel 1 (the Plover–Alcove passage): the player
is relocated to the opposite room exactly when holding nothing, or
exactly one object which is the emerald; otherwise `newloc` is reset to
the current location and MUST_DROP is emitted. -/
theorem C8_plover_passage (d : Dungeon) (s : GState) (m : Int)
    (ht : d.tkey s.loc ≠ 0) (hm1 : m ≠ d.mNul) (hm2 : m ≠ d.mBack)
    (hm3 : m ≠ d.mLook) (hm4 : m ≠ d.mCave)
    (hmatch : (d.travel (d.tkey s.loc)).motion = m)
    (hct : (d.travel (d.tkey s.loc)).condtype = 0)
    (ha1 : (d.travel (d.tkey s.loc)).condarg1 = 0)
    (hdt : (d.travel (d.tkey s.loc)).desttype = 1)
    (hdv : (d.travel (d.tkey s.loc)).destval = 1)
    (hploc : s.loc = d.locPlover ∨ s.loc = d.locAlcove)
    (hh0 : 0 ≤ s.holdng) :
    (s.holdng = 0 ∨ (s.holdng = 1 ∧ TOTING s d.emerald = true) →
      playermove d 1 s m =
        .ok { s with
          newloc := if s.loc = d.locPlover then d.locAlcove else d.locPlover
          oldlc2 := s.oldloc
          oldloc := s.loc } []) ∧
    (1 < s.holdng ∨ (s.holdng = 1 ∧ TOTING s d.emerald = false) →
      playermove d 1 s m =
        .ok { s with newloc := s.loc, oldlc2 := s.oldloc, oldloc := s.loc }
          [Ev.rsp d.msgMustDrop []]) := by
  have hbase : playermove d 1 s m =
      l12 d 1 { s with
        newloc := s.loc
        oldlc2 := s.oldloc
        oldloc := s.loc } (d.tkey s.loc) [] := by
    simp only [playermove]
    rw [if_neg ht, if_neg hm1, if_neg hm2, if_neg hm3, if_neg hm4,
      mainScan, scanLoop_found_head d m 0 _ hmatch]
  have hec : evalCond d { s with
      newloc := s.loc
      oldlc2 := s.oldloc
      oldloc := s.loc } (d.travel (d.tkey s.loc)) =
      (true, { s with
        newloc := s.loc
        oldlc2 := s.oldloc
        oldloc := s.loc }) := by
    rw [evalCond, if_pos (by rw [hct]; norm_num), if_pos (Or.inl hct),
      if_pos ha1]
  have hl12 := (l12_cond_true d 0 _ _ (d.tkey s.loc) [] hec).trans
    (execRule_special1 d 1 _ _ (d.tkey s.loc) [] hdt hdv)
  constructor
  · intro hok
    have hcond : ¬(({ s with
        newloc := s.loc
        oldlc2 := s.oldloc
        oldloc := s.loc } : GState).holdng > 1 ∨
        (({ s with
          newloc := s.loc
          oldlc2 := s.oldloc
          oldloc := s.loc } : GState).holdng = 1 ∧
        ¬TOTING { s with
          newloc := s.loc
          oldlc2 := s.oldloc
          oldloc := s.loc } d.emerald)) := by
      show ¬(s.holdng > 1 ∨ (s.holdng = 1 ∧ ¬(TOTING s d.emerald = true)))
      rcases hok with hz | ⟨h1, h2⟩
      · rw [hz]
        rintro (hc | ⟨hc, -⟩) <;> omega
      · rintro (hc | ⟨-, hc⟩)
        · omega
        · exact hc h2
    rw [hbase, hl12, if_neg hcond]
  · intro hbad
    have hcond : (({ s with
        newloc := s.loc
        oldlc2 := s.oldloc
        oldloc := s.loc } : GState).holdng > 1 ∨
        (({ s with
          newloc := s.loc
          oldlc2 := s.oldloc
          oldloc := s.loc } : GState).holdng = 1 ∧
        ¬TOTING { s with
          newloc := s.loc
          oldlc2 := s.oldloc
          oldloc := s.loc } d.emerald)) := by
      show s.holdng > 1 ∨ (s.holdng = 1 ∧ ¬(TOTING s d.emerald = true))
      rcases hbad with hc | ⟨h1, h2⟩
      · exact Or.inl hc
      · exact Or.inr ⟨h1, by rw [h2]; exact Bool.false_ne_true⟩
    rw [hbase, hl12, if_pos hcond]
    rfl

/-- Witness for C8: empty-handed passage succeeds; holding two objects
bounces with MUST_DROP. -/
theorem C8_plover_passage_witness :
    playermove dPlov 1 sObj 5 =
      .ok { sObj with
        newloc := 2
        oldlc2 := sObj.oldloc
        oldloc := sObj.loc } [] ∧
    playermove dPlov 1 sHold2 5 =
      .ok { sHold2 with
        newloc := sHold2.loc
        oldlc2 := sHold2.oldloc
        oldloc := sHold2.loc } [Ev.rsp dPlov.msgMustDrop []] := by
  constructor
  · have h := (C8_plover_passage dPlov sObj 5 (by decide) (by decide)
      (by decide) (by decide) (by decide) (by decide) (by decide)
      (by decide) (by decide) (by decide) (Or.inl (by decide))
      (by decide)).1 (Or.inl (by decide))
    exact h
  · exact (C8_plover_passage dPlov sHold2 5 (by decide) (by decide)
      (by decide) (by decide) (by decide) (by decide) (by decide)
      (by decide) (by decide) (by decide) (Or.inl (by decide))
      (by decide)).2 (Or.inl (by decide))

/-! ## Claim C9 -/

theorem condSkip_go (d : Dungeon) (t : Int) (k : Nat) :
    ∀ j : Nat,
      (d.travel (t + ((j + k : Nat) : Int))).stop = true →
      (∀ i : Nat, j < i → i ≤ j + k →
        traveleq d t (t + (i : Int)) = true) →
      (∀ i : Nat, j ≤ i → i < j + k →
        (d.travel (t + (i : Int))).stop = false) →
      condSkip d (k + 1) t (t + (j : Int)) = .stopHit := by
  induction k with
  | zero =>
    intro j h1 h2 h3
    rw [show ((j + 0 : Nat) : Int) = (j : Int) by push_cast; ring] at h1
    rw [condSkip, if_pos h1]
  | succ k ih =>
    intro j h1 h2 h3
    have hs0 : (d.travel (t + (j : Int))).stop = false :=
      h3 j le_rfl (by omega)
    have heq1 : traveleq d t (t + (j : Int) + 1) = true := by
      rw [show t + (j : Int) + 1 = t + ((j + 1 : Nat) : Int) by
        push_cast; ring]
      exact h2 (j + 1) (by omega) (by omega)
    rw [condSkip, if_neg (by rw [hs0]; exact Bool.false_ne_true),
      if_pos heq1,
      show t + (j : Int) + 1 = t + ((j + 1 : Nat) : Int) by push_cast; ring]
    exact ih (j + 1)
      (by rw [show ((j + 1 + k : Nat) : Int) = ((j + (k + 1) : Nat) : Int)
        by push_cast; ring]; exact h1)
      (fun i hi1 hi2 => h2 i (by omega) (by omega))
      (fun i hi1 hi2 => h3 i (by omega) (by omega))

theorem l12_condfail (d : Dungeon) (fuel : Nat) (s : GState) (te : Int)
    (evs : List Ev) (hfail : (evalCond d s (d.travel te)).1 = false)
    (hskip : condSkip d (fuel + 1) te te = .stopHit) :
    l12 d (fuel + 1) s te evs = .fault 4 evs := by
  simp only [l12]
  rw [if_neg (by rw [hfail]; exact Bool.false_ne_true), hskip]

/-- **C9.**  When a travel rule's condition fails and the forward skip
over same-signature entries reaches an entry flagged `stop` before any
differing alternative, `playermove` raises the fatal
CONDITIONAL_TRAVEL_ENTRY_WITH_NO_ALTERATION fault (BugType 4) instead
of falling through. -/
theorem C9_unterminated_chain_fault (d : Dungeon) (s : GState) (m : Int)
    (k : Nat) (ht : d.tkey s.loc ≠ 0) (hm1 : m ≠ d.mNul)
    (hm2 : m ≠ d.mBack) (hm3 : m ≠ d.mLook) (hm4 : m ≠ d.mCave)
    (hmatch : (d.travel (d.tkey s.loc)).motion = m)
    (hfail : (evalCond d { s with
      newloc := s.loc
      oldlc2 := s.oldloc
      oldloc := s.loc } (d.travel (d.tkey s.loc))).1 = false)
    (hstop : (d.travel (d.tkey s.loc + (k : Int))).stop = true)
    (heq : ∀ i : Nat, 1 ≤ i → i ≤ k →
      traveleq d (d.tkey s.loc) (d.tkey s.loc + (i : Int)) = true)
    (hnostop : ∀ i : Nat, i < k →
      (d.travel (d.tkey s.loc + (i : Int))).stop = false) :
    playermove d (k + 1) s m = .fault 4 [] := by
  have hbase : playermove d (k + 1) s m =
      l12 d (k + 1) { s with
        newloc := s.loc
        oldlc2 := s.oldloc
        oldloc := s.loc } (d.tkey s.loc) [] := by
    simp only [playermove]
    rw [if_neg ht, if_neg hm1, if_neg hm2, if_neg hm3, if_neg hm4,
      mainScan, scanLoop_found_head d m k _ hmatch]
  have hskip : condSkip d (k + 1) (d.tkey s.loc) (d.tkey s.loc) =
      .stopHit := by
    have h := condSkip_go d (d.tkey s.loc) k 0
      (by rw [show ((0 + k : Nat) : Int) = (k : Int) by push_cast; ring]
          exact hstop)
      (fun i hi1 hi2 => heq i (by omega) (by omega))
      (fun i hi1 hi2 => hnostop i (by omega))
    rw [show d.tkey s.loc + ((0 : Nat) : Int) = d.tkey s.loc by
      push_cast; ring] at h
    exact h
  rw [hbase, l12_condfail d k _ _ _ hfail hskip]

/-- Witness for C9: the conditional entry with no alternative aborts
with BugType 4. -/
theorem C9_unterminated_chain_fault_witness :
    playermove dFail 1 sObj 5 = .fault 4 [] := by
  exact C9_unterminated_chain_fault dFail sObj 5 0 (by decide) (by decide)
    (by decide) (by decide) (by decide) (by decide) (by decide) (by decide)
    (fun i hi1 hi2 => absurd (hi1.trans hi2) (by omega))
    (fun i hi => absurd hi (Nat.not_lt_zero i))

end Advent

